import Mathlib

/-!
Verification of the bank-statement transaction-parsing engine.

This file gives a shallow embedding, in Lean 4, of the parsing core of the
repository (line normalizer, candidate detector, date / amount / description
extractors, transaction validator, orchestrator) and proves properties of it.

Modelling conventions:
* JS strings are modelled as `List Char` (`Str`).  JS `String.length` counts
  UTF-16 code units while `List.length` counts code points; all characters
  occurring in the source's patterns and in the inputs considered here are in
  the basic multilingual plane, where the two coincide.
* Monetary values are modelled in cents (`Nat`).  Every numeric string the
  extractors parse has the shape `digits[,ddd]*[.dd]`, on which JS
  `parseFloat` is exact, so scaling by 100 is an exact model.
* The JS regexes of the source are modelled by an explicit backtracking
  regex interpreter (`RE`, `reRun`) implementing the standard leftmost /
  greedy / first-alternative match order of JS `RegExp`, with the word
  boundary `\b` defined over `[A-Za-z0-9_]` and `\s` as ASCII whitespace
  plus NBSP (the inputs considered contain no other Unicode spaces).
* Clock-dependent code (`new Date()`, `getFullYear`, `toISOString`) is
  modelled by an explicit environment `Env` threaded through the functions
  that read the clock.
-/

namespace BankParser

/-- JS strings, as lists of characters. -/
abbrev Str := List Char

/-- Character list of a Lean string literal. -/
def strOf (s : String) : Str := s.data

/-- Digit character `0`..`9`. -/
def isDigitC (c : Char) : Bool := 48 ≤ c.toNat && c.toNat ≤ 57

/-- Whitespace characters recognised by JS `\s` (ASCII part plus NBSP). -/
def isWsC (c : Char) : Bool :=
  (9 ≤ c.toNat && c.toNat ≤ 13) || c.toNat = 32 || c.toNat = 160

/-- Word characters of JS `\w`, which also define the `\b` boundary. -/
def isWordC (c : Char) : Bool :=
  (65 ≤ c.toNat && c.toNat ≤ 90) || (97 ≤ c.toNat && c.toNat ≤ 122) ||
  isDigitC c || c.toNat = 95

/-- Regular expressions, covering exactly the constructs used by the source:
character classes, concatenation, alternation, capturing groups, greedy
counted repetition, word boundaries and the `^` / `$` anchors. -/
inductive RE where
  | eps : RE
  | cls : Bool → List (Char × Char) → RE
  | cat : RE → RE → RE
  | alt : RE → RE → RE
  | grp : Nat → RE → RE
  | rep : Nat → Option Nat → RE → RE
  | wb : RE
  | bol : RE
  | eol : RE
deriving DecidableEq

/-- Captured-group positions: `(group number, start, stop)`, most recent
first.  No capturing group of the source sits inside a quantifier, so the
first entry for a group number is its JS capture. -/
abbrev Caps := List (Nat × Nat × Nat)

/-- Character membership in a class given by inclusive ranges. -/
def inRanges (c : Char) (rs : List (Char × Char)) : Bool :=
  rs.any fun p => p.1.toNat ≤ c.toNat && c.toNat ≤ p.2.toNat

/-- The character of `s` at position `i`, if any. -/
def charAt (s : Str) (i : Nat) : Option Char := s.get? i

/-- Whether a JS `\b` word boundary sits at position `i` of `s`. -/
def wordBoundary (s : Str) (i : Nat) : Bool :=
  let before := if i = 0 then false else
    match charAt s (i - 1) with
    | some c => isWordC c
    | none => false
  let after := match charAt s i with
    | some c => isWordC c
    | none => false
  before != after

/-- Greedy repetition: all ways of matching `min ≤ n ≤ max` copies of the
body starting at `pos`, longest-first (the JS backtracking order).  An
iteration must consume at least one character (no body of a quantifier in
the source can match the empty string).  `fuel` bounds the iteration count;
callers pass `length + 1`, which is sufficient since every iteration
consumes a character. -/
def repRun (body : Nat → Caps → List (Nat × Caps)) :
    Nat → Nat → Option Nat → Nat → Caps → List (Nat × Caps)
  | 0, min, _, pos, caps => if min = 0 then [(pos, caps)] else []
  | fuel + 1, min, max, pos, caps =>
    let more :=
      if max = some 0 then []
      else
        (body pos caps).flatMap fun pc =>
          if pos < pc.1 then
            repRun body fuel (min - 1) (max.map (· - 1)) pc.1 pc.2
          else []
    more ++ (if min = 0 then [(pos, caps)] else [])

/-- All matches of `r` in `s` starting exactly at `pos`, as
`(end position, captures)` pairs in JS backtracking priority order. -/
def reRun (s : Str) : RE → Nat → Caps → List (Nat × Caps)
  | .eps, pos, caps => [(pos, caps)]
  | .cls neg rs, pos, caps =>
    match charAt s pos with
    | some c => if inRanges c rs != neg then [(pos + 1, caps)] else []
    | none => []
  | .cat r1 r2, pos, caps =>
    (reRun s r1 pos caps).flatMap fun pc => reRun s r2 pc.1 pc.2
  | .alt r1 r2, pos, caps => reRun s r1 pos caps ++ reRun s r2 pos caps
  | .grp n r, pos, caps =>
    (reRun s r pos caps).map fun pc => (pc.1, (n, pos, pc.1) :: pc.2)
  | .rep min max r, pos, caps =>
    repRun (fun p cp => reRun s r p cp) (s.length + 1) min max pos caps
  | .wb, pos, caps => if wordBoundary s pos then [(pos, caps)] else []
  | .bol, pos, caps => if pos = 0 then [(pos, caps)] else []
  | .eol, pos, caps => if pos = s.length then [(pos, caps)] else []

/-- One regex match: start, end, and captured groups. -/
structure RMatch where
  index : Nat
  stop : Nat
  caps : Caps
deriving DecidableEq

/-- The first match of `r` at exactly position `i`, if any. -/
def reTryAt (s : Str) (r : RE) (i : Nat) : Option RMatch :=
  match reRun s r i [] with
  | [] => none
  | pc :: _ => some ⟨i, pc.1, pc.2⟩

/-- Leftmost match search from position `i`; `fuel` counts the candidate
start positions left to try. -/
def reSearchAux (s : Str) (r : RE) : Nat → Nat → Option RMatch
  | 0, _ => none
  | fuel + 1, i =>
    match reTryAt s r i with
    | some m => some m
    | none => reSearchAux s r fuel (i + 1)

/-- JS `string.match(re)` / `re.exec(string)`: the leftmost match of `r` in
`s` at or after position `start`. -/
def reSearch (s : Str) (r : RE) (start : Nat) : Option RMatch :=
  reSearchAux s r (s.length + 1 - start) start

/-- JS `string.matchAll(re_with_g_flag)`: all matches, scanning from the end
of each previous match.  (A zero-width match would bump the scan position by
one, as JS does; no pattern of the source can match the empty string.) -/
def reMatchAllAux (s : Str) (r : RE) : Nat → Nat → List RMatch
  | 0, _ => []
  | fuel + 1, i =>
    match reSearch s r i with
    | none => []
    | some m =>
      m :: reMatchAllAux s r fuel (if m.index < m.stop then m.stop else m.stop + 1)

/-- All matches of `r` in `s`, as with the JS `g` flag. -/
def reMatchAll (s : Str) (r : RE) : List RMatch :=
  reMatchAllAux s r (s.length + 1) 0

/-- JS `re.test(string)`. -/
def reTest (r : RE) (s : Str) : Bool := (reSearch s r 0).isSome

/-- The slice `[i, j)` of `s`. -/
def slice (s : Str) (i j : Nat) : Str := (s.drop i).take (j - i)

/-- The full matched text `match[0]` of a match. -/
def matchedText (s : Str) (m : RMatch) : Str := slice s m.index m.stop

/-- The text of capture group `n`, or `none` when the group did not
participate in the match. -/
def capText (s : Str) (m : RMatch) (n : Nat) : Option Str :=
  match m.caps.find? (fun e => e.1 = n) with
  | some e => some (slice s e.2.1 e.2.2)
  | none => none

/-- Replace every match from an ordered, non-overlapping match list by
`repl`, keeping the text in between. -/
def spliceAll (s : Str) (repl : Str) : Nat → List RMatch → Str
  | pos, [] => s.drop pos
  | pos, m :: rest => slice s pos m.index ++ repl ++ spliceAll s repl m.stop rest

/-- JS `string.replace(re_with_g_flag, repl)` for a constant replacement. -/
def reReplaceAll (r : RE) (s : Str) (repl : Str) : Str :=
  spliceAll s repl 0 (reMatchAll s r)

/-- JS `string.split(re)`: the pieces of `s` between the matches of `r`. -/
def reSplit (r : RE) (s : Str) : List Str :=
  let rec go (pos : Nat) : List RMatch → List Str
    | [] => [s.drop pos]
    | m :: rest => slice s pos m.index :: go m.stop rest
  go 0 (reMatchAll s r)

/-- Whether `pat` occurs in `s` starting at position `i`. -/
def occursAt (s pat : Str) (i : Nat) : Bool :=
  decide (slice s i (i + pat.length) = pat)

/-- Position search for a literal substring; `fuel` counts remaining start
positions. -/
def findSubAux (s pat : Str) : Nat → Nat → Option Nat
  | 0, _ => none
  | fuel + 1, i =>
    if occursAt s pat i then some i else findSubAux s pat fuel (i + 1)

/-- JS `string.indexOf(pat)`, as an `Option`. -/
def findSub (s pat : Str) : Option Nat :=
  findSubAux s pat (s.length + 1) 0

/-- JS `string.includes(pat)`. -/
def containsSub (s pat : Str) : Bool := (findSub s pat).isSome

/-- JS `string.replace(literal, repl)`: replace the first occurrence only. -/
def replaceFirstStr (s pat repl : Str) : Str :=
  match findSub s pat with
  | some i => slice s 0 i ++ repl ++ s.drop (i + pat.length)
  | none => s

/-- JS `string.trim()`. -/
def trimStr (s : Str) : Str :=
  ((s.dropWhile isWsC).reverse.dropWhile isWsC).reverse

/-- Numeric value of a digit string (the `parseInt` of the all-digit
captures of the source's patterns). -/
def digitsToNat (s : Str) : Nat :=
  s.foldl (fun a c => a * 10 + (c.toNat - 48)) 0

/-- `parseFloat(str.replace(/,/g, '')) * 100` for the amount shapes matched
by the source's patterns (`digits[,ddd]*[.dd]`), on which this is exact. -/
def parseCents (s : Str) : Nat :=
  let t := s.filter fun c => c != ','
  let intPart := t.takeWhile isDigitC
  let rest := t.drop intPart.length
  let frac :=
    match rest with
    | '.' :: more => (more.takeWhile isDigitC ++ ['0', '0']).take 2
    | _ => ['0', '0']
  digitsToNat intPart * 100 + digitsToNat frac

/-- Decimal digits of `n`, most significant first. -/
def natDigits (n : Nat) : Str :=
  (Nat.toDigits 10 n)

/-- `String(n)` for a natural number. -/
def natToStr (n : Nat) : Str := natDigits n

/-! Regex construction helpers. -/

/-- A class matching nothing (used to fold alternation lists). -/
def rFail : RE := .cls false []

/-- A single literal character. -/
def rLit (c : Char) : RE := .cls false [(c, c)]

/-- A letter, case-insensitively (JS `i` flag). -/
def rCI (c : Char) : RE :=
  if 65 ≤ c.toNat && c.toNat ≤ 90 then
    .cls false [(c, c), (Char.ofNat (c.toNat + 32), Char.ofNat (c.toNat + 32))]
  else if 97 ≤ c.toNat && c.toNat ≤ 122 then
    .cls false [(Char.ofNat (c.toNat - 32), Char.ofNat (c.toNat - 32)), (c, c)]
  else rLit c

/-- Concatenation of a list of regexes. -/
def rSeq (l : List RE) : RE := l.foldr .cat .eps

/-- Alternation of a nonempty list of regexes, left priority first. -/
def rAlts (l : List RE) : RE :=
  match l with
  | [] => rFail
  | r :: rest => rest.foldl .alt r

/-- A literal string. -/
def rStr (s : String) : RE := rSeq (s.data.map rLit)

/-- A literal string under the JS `i` flag. -/
def rStrCI (s : String) : RE := rSeq (s.data.map rCI)

/-- `re?`. -/
def rOpt (r : RE) : RE := .rep 0 (some 1) r

/-- `re*`. -/
def rMany (r : RE) : RE := .rep 0 none r

/-- `re+`. -/
def rPlus (r : RE) : RE := .rep 1 none r

/-- `re{m,n}`. -/
def rRep (m n : Nat) (r : RE) : RE := .rep m (some n) r

/-- `re{m,}`. -/
def rAtLeast (m : Nat) (r : RE) : RE := .rep m none r

/-- `\d`. -/
def rDigit : RE := .cls false [('0', '9')]

/-- `\s` (ASCII whitespace plus NBSP, see `isWsC`). -/
def rWs : RE :=
  .cls false [(Char.ofNat 9, Char.ofNat 13), (' ', ' '), (Char.ofNat 160, Char.ofNat 160)]

/-- The whitespace ranges of `rWs`, for use inside larger classes. -/
def wsRanges : List (Char × Char) :=
  [(Char.ofNat 9, Char.ofNat 13), (' ', ' '), (Char.ofNat 160, Char.ofNat 160)]

/-- `[a-zA-Z]`. -/
def rAlpha : RE := .cls false [('a', 'z'), ('A', 'Z')]

/-- `[$£€₹]`. -/
def rCurrency : RE := .cls false [('$', '$'), ('£', '£'), ('€', '€'), ('₹', '₹')]

/-- `[\/\-\.]`, the numeric-date separator class. -/
def rDateSep : RE := .cls false [('/', '/'), ('-', '-'), ('.', '.')]

/-!
Stable sorting.  JS `Array.prototype.sort` with a numeric comparator
`(a, b) => key(a) - key(b)` is specified (ES2019) to produce a stable,
key-ascending reordering; any two stable key-ascending sorts of a list
coincide, so a stable insertion sort is an exact model of it.
-/

/-- Insert `x` before the first element whose key is not smaller; elements
passed over all have strictly smaller keys, so `x` lands before every
equal-key element (stability for the element inserted first). -/
def insertByKey (f : α → Int) (x : α) : List α → List α
  | [] => [x]
  | y :: ys => if f x ≤ f y then x :: y :: ys else y :: insertByKey f x ys

/-- Stable key-ascending insertion sort. -/
def sortByKey (f : α → Int) : List α → List α
  | [] => []
  | x :: xs => insertByKey f x (sortByKey f xs)

/-!
Clock environment.  The source reads the clock through `new Date()`:
`getFullYear()` for the date-validity upper bound, the full current date for
the two "reasonable range" checks, and `toISOString()` for the result
metadata.  The embedding passes these as an explicit environment.
-/

/-- The ambient clock of a parse run. -/
structure Env where
  curYear : Nat
  todayY : Nat
  todayM : Nat
  todayD : Nat
  parseDate : Str
deriving DecidableEq

/-- Days since the Unix epoch of a civil date (proleptic Gregorian);
`m` must be in `[1,12]`. -/
def daysFromCivil (y m d : Int) : Int :=
  let y2 := if m ≤ 2 then y - 1 else y
  let era := y2.fdiv 400
  let yoe := y2 - era * 400
  let mp := if 2 < m then m - 3 else m + 9
  let doy := (153 * mp + 2).fdiv 5 + d - 1
  let doe := yoe * 365 + yoe.fdiv 4 - yoe.fdiv 100 + doy
  era * 146097 + doe - 719468

/-- The day count of JS `new Date(y, m0, d)` (0-based month `m0`), including
the JS normalization of out-of-range month and day arguments. -/
def jsDateDays (y m0 d : Int) : Int :=
  let ym := y * 12 + m0
  daysFromCivil (ym.fdiv 12) (ym.emod 12 + 1) 1 + (d - 1)

/-- Gregorian leap year. -/
def isLeapYear (y : Nat) : Bool := (y % 4 = 0 && y % 100 != 0) || y % 400 = 0

/-- Number of days of month `m` of year `y`. -/
def daysInMonth (y m : Nat) : Nat :=
  if m = 2 then (if isLeapYear y then 29 else 28)
  else if m = 4 || m = 6 || m = 9 || m = 11 then 30
  else 31

/-!
Layer 1: line normalizer (`line-normalizer.ts`).
-/

/-- The noise signatures of `NOISE_PATTERNS`, in source order: page-number
markers, statement headers, table headers, all-caps blocks of 50+
characters, separator runs, and "continued" markers. -/
def NOISE_PATTERNS : List RE :=
  [ rSeq [.bol, rStrCI "page", rPlus rWs, rPlus rDigit],
    rSeq [.bol, rPlus rDigit, rPlus rWs, rStrCI "of", rPlus rWs, rPlus rDigit, .eol],
    rSeq [.bol, rStrCI "statement", rPlus rWs, rStrCI "period"],
    rSeq [.bol, rStrCI "account", rPlus rWs, rStrCI "number"],
    rSeq [.bol, rStrCI "account", rPlus rWs, rStrCI "summary"],
    rSeq [.bol, rStrCI "opening", rPlus rWs, rStrCI "balance"],
    rSeq [.bol, rStrCI "closing", rPlus rWs, rStrCI "balance"],
    rSeq [.bol, rStrCI "total", rPlus rWs,
      .grp 1 (rAlts [rSeq [rStrCI "debit", rOpt (rCI 's')],
                     rSeq [rStrCI "credit", rOpt (rCI 's')]])],
    rSeq [.bol, rStrCI "date", rPlus rWs,
      .grp 1 (rAlts [rStrCI "description", rStrCI "details"])],
    rSeq [.bol, .grp 1 (rAlts [rStrCI "debit", rStrCI "credit", rStrCI "balance"]), .eol],
    rSeq [.bol, rStrCI "amount", rPlus rWs, rStrCI "balance", .eol],
    rSeq [.bol, rAtLeast 50 (.cls false (('A', 'Z') :: wsRanges)), .eol],
    rSeq [.bol, rAtLeast 10 (.cls false
      ([('-', '-'), ('=', '='), ('_', '_'), ('*', '*')] ++ wsRanges)), .eol],
    rSeq [.bol, .grp 1 (rAlts [rStrCI "continued",
                               rSeq [rStrCI "cont", rLit '.'],
                               rStrCI "contd"])] ]

/-- `MIN_LINE_LENGTH`. -/
def MIN_LINE_LENGTH : Nat := 10

/-- `MAX_LINE_LENGTH`. -/
def MAX_LINE_LENGTH : Nat := 300

/-- `normalizeLine`: trim, collapse runs of whitespace, normalize spacing
around colons. -/
def normalizeLine (line : Str) : Str :=
  let n1 := trimStr line
  let n2 := reReplaceAll (rAtLeast 2 rWs) n1 (strOf " ")
  reReplaceAll (rSeq [rMany rWs, rLit ':', rMany rWs]) n2 (strOf ": ")

/-- `isNoiseLine`: too short, too long, or matching a noise signature. -/
def isNoiseLine (line : Str) : Bool :=
  if line.length < MIN_LINE_LENGTH then true
  else if MAX_LINE_LENGTH < line.length then true
  else NOISE_PATTERNS.any fun p => reTest p line

/-- `filterNoiseLines`. -/
def filterNoiseLines (lines : List Str) : List Str :=
  lines.filter fun line => !isNoiseLine line

/-- The date shapes `smartSplitLines` re-splits on:
`/(\d{1,2}\/\d{1,2}\/\d{2,4})/g` and `/(\d{4}-\d{2}-\d{2})/g`. -/
def SMART_SPLIT_DATE_PATTERNS : List RE :=
  [ .grp 1 (rSeq [rRep 1 2 rDigit, rLit '/', rRep 1 2 rDigit, rLit '/', rRep 2 4 rDigit]),
    .grp 1 (rSeq [rRep 4 4 rDigit, rLit '-', rRep 2 2 rDigit, rLit '-', rRep 2 2 rDigit]) ]

/-- The chunking loop of `smartSplitLines` for one date pattern: the text
between consecutive date-match start positions becomes one chunk.  (The JS
guard `match.index && match.index > lastIndex` is `m.index > lastIndex` over
naturals: a zero index is falsy, and `0 > lastIndex` is false as well.) -/
def smartChunks (text : Str) (ms : List RMatch) : List Str :=
  let step := ms.foldl
    (fun (acc : List Str × Nat) m =>
      if acc.2 < m.index then
        let chunk := trimStr (slice text acc.2 m.index)
        (acc.1 ++ (if 0 < chunk.length then [chunk] else []), m.index)
      else acc)
    ([], 0)
  if step.2 < text.length then
    let chunk := trimStr (text.drop step.2)
    step.1 ++ (if 0 < chunk.length then [chunk] else [])
  else step.1

/-- `smartSplitLines`: split on newlines; when that yields fewer than 5
lines for a text longer than 500 characters, re-split at date-pattern
positions and keep whichever split yields more lines. -/
def smartSplitLines (text : Str) : List Str :=
  let lines := text.splitOn '\n'
  if lines.length < 5 && 500 < text.length then
    SMART_SPLIT_DATE_PATTERNS.foldl
      (fun best pat =>
        let parts := smartChunks text (reMatchAll text pat)
        if best.length < parts.length then parts else best)
      lines
  else lines

/-- `normalizeLines`: smart split, normalize each line, drop noise, drop
empties. -/
def normalizeLines (text : Str) : List Str :=
  let lines := smartSplitLines text
  let normalizedLines := lines.map normalizeLine
  let cleanLines := filterNoiseLines normalizedLines
  cleanLines.filter fun line => 0 < line.length

/-!
Layer 2: candidate detector (`candidate-detector.ts`).
-/

/-- Month-name alternation `(Jan|Feb|...|Dec)` under the `i` flag. -/
def rMonthAlt : RE :=
  rAlts ([ "Jan", "Feb", "Mar", "Apr", "May", "Jun",
           "Jul", "Aug", "Sep", "Oct", "Nov", "Dec" ].map rStrCI)

/-- The amount core `\d{1,3}(?:,\d{3})*(?:\.\d{2})?`. -/
def rAmountCore : RE :=
  rSeq [rRep 1 3 rDigit, rMany (rSeq [rLit ',', rRep 3 3 rDigit]),
        rOpt (rSeq [rLit '.', rRep 2 2 rDigit])]

/-- `DATE_PATTERNS` of the candidate detector, in source order. -/
def DATE_PATTERNS : List RE :=
  [ rSeq [.wb, rRep 4 4 rDigit, rLit '-', rRep 2 2 rDigit, rLit '-', rRep 2 2 rDigit, .wb],
    rSeq [.wb, rRep 1 2 rDigit, rDateSep, rRep 1 2 rDigit, rDateSep, rRep 4 4 rDigit, .wb],
    rSeq [.wb, rRep 1 2 rDigit, .cls false (('-', '-') :: wsRanges), .grp 1 rMonthAlt,
          rMany rAlpha, rMany (.cls false (('-', '-') :: wsRanges)), rRep 4 4 rDigit, .wb],
    rSeq [.wb, .grp 1 rMonthAlt, rMany rAlpha, rPlus rWs, rRep 1 2 rDigit, rOpt (rLit ','),
          rPlus rWs, rRep 4 4 rDigit, .wb],
    rSeq [.wb, rRep 1 2 rDigit, rDateSep, rRep 1 2 rDigit, rDateSep, rRep 2 2 rDigit, .wb] ]

/-- `AMOUNT_PATTERNS` of the candidate detector, in source order (the third
carries the `i` flag). -/
def AMOUNT_PATTERNS : List RE :=
  [ rSeq [.alt .bol rWs, rOpt rCurrency, rMany rWs, rAmountCore, .alt rWs .eol],
    rSeq [rLit '(', rAmountCore, rLit ')'],
    rSeq [rAmountCore, rMany rWs, rAlts [rStrCI "CR", rStrCI "DR"]],
    rSeq [.alt .bol rWs, rLit '-', rMany rWs, rAmountCore, .alt rWs .eol] ]

/-- The patterns `hasBalancePattern` counts with.  It rebuilds each pattern
as `new RegExp(pattern, 'g')`, which *replaces* the flag set, so the `i`
flag of the third pattern is dropped there: `CR` / `DR` must be upper-case
to be counted. -/
def AMOUNT_PATTERNS_G : List RE :=
  [ rSeq [.alt .bol rWs, rOpt rCurrency, rMany rWs, rAmountCore, .alt rWs .eol],
    rSeq [rLit '(', rAmountCore, rLit ')'],
    rSeq [rAmountCore, rMany rWs, rAlts [rStr "CR", rStr "DR"]],
    rSeq [.alt .bol rWs, rLit '-', rMany rWs, rAmountCore, .alt rWs .eol] ]

/-- `hasDatePattern`. -/
def hasDatePattern (line : Str) : Bool :=
  DATE_PATTERNS.any fun p => reTest p line

/-- `hasAmountPattern`. -/
def hasAmountPattern (line : Str) : Bool :=
  AMOUNT_PATTERNS.any fun p => reTest p line

/-- `hasBalancePattern`: two or more amount-shaped matches. -/
def hasBalancePattern (line : Str) : Bool :=
  2 ≤ (AMOUNT_PATTERNS_G.map fun p => (reMatchAll line p).length).sum

/-- `hasGoodStructure`: at least 3 whitespace-separated tokens, and the line
contains both alphabetic (2+ letters) and numeric content. -/
def hasGoodStructure (line : Str) : Bool :=
  let tokens := reSplit (rPlus rWs) line
  if tokens.length < 3 then false
  else reTest (rAtLeast 2 rAlpha) line && reTest (rPlus rDigit) line

/-- `CandidateLine` of `types.ts`. -/
structure CandidateLine where
  line : Str
  lineNumber : Nat
  hasDate : Bool
  hasAmount : Bool
  hasBalance : Bool
  likelyTransaction : Bool
deriving DecidableEq

/-- `detectCandidates`: classify each line; `lineNumber` is 1-based. -/
def detectCandidates (lines : List Str) : List CandidateLine :=
  lines.enum.map fun il =>
    let line := il.2
    let hasDate := hasDatePattern line
    let hasAmount := hasAmountPattern line
    let hasBalance := hasBalancePattern line
    let goodStructure := hasGoodStructure line
    { line := line
      lineNumber := il.1 + 1
      hasDate := hasDate
      hasAmount := hasAmount
      hasBalance := hasBalance
      likelyTransaction := (hasDate && hasAmount) || (goodStructure && (hasDate || hasAmount)) }

/-- `filterLikelyCandidates`. -/
def filterLikelyCandidates (candidates : List CandidateLine) : List CandidateLine :=
  candidates.filter fun c => c.likelyTransaction

/-!
Layer 3a: date extractor (`date-extractor.ts`).
-/

/-- The format identifier strings of `DATE_EXTRACTION_PATTERNS`. -/
inductive DateFmt where
  | isoFmt : DateFmt
  | dmy4 : DateFmt
  | dMonY : DateFmt
  | monDY : DateFmt
  | dmy2 : DateFmt
deriving DecidableEq

/-- `DATE_EXTRACTION_PATTERNS`, in source order: ISO, numeric with 4-digit
year, day–month-name–year, month-name–day–year, numeric with 2-digit
year. -/
def DATE_EXTRACTION_PATTERNS : List (RE × DateFmt) :=
  [ (rSeq [.wb, .grp 1 (rRep 4 4 rDigit), rLit '-', .grp 2 (rRep 2 2 rDigit),
           rLit '-', .grp 3 (rRep 2 2 rDigit), .wb], .isoFmt),
    (rSeq [.wb, .grp 1 (rRep 1 2 rDigit), rDateSep, .grp 2 (rRep 1 2 rDigit),
           rDateSep, .grp 3 (rRep 4 4 rDigit), .wb], .dmy4),
    (rSeq [.wb, .grp 1 (rRep 1 2 rDigit), .cls false (('-', '-') :: wsRanges),
           .grp 2 rMonthAlt, rMany rAlpha, rMany (.cls false (('-', '-') :: wsRanges)),
           .grp 3 (rRep 4 4 rDigit), .wb], .dMonY),
    (rSeq [.wb, .grp 1 rMonthAlt, rMany rAlpha, rPlus rWs, .grp 2 (rRep 1 2 rDigit),
           rOpt (rLit ','), rPlus rWs, .grp 3 (rRep 4 4 rDigit), .wb], .monDY),
    (rSeq [.wb, .grp 1 (rRep 1 2 rDigit), rDateSep, .grp 2 (rRep 1 2 rDigit),
           rDateSep, .grp 3 (rRep 2 2 rDigit), .wb], .dmy2) ]

/-- JS `toLowerCase` on the ASCII letters occurring in month names. -/
def toLowerStr (s : Str) : Str :=
  s.map fun c =>
    if 65 ≤ c.toNat && c.toNat ≤ 90 then Char.ofNat (c.toNat + 32) else c

/-- `MONTH_NAMES`. -/
def MONTH_NAMES : List (Str × Nat) :=
  [ (strOf "jan", 1), (strOf "january", 1),
    (strOf "feb", 2), (strOf "february", 2),
    (strOf "mar", 3), (strOf "march", 3),
    (strOf "apr", 4), (strOf "april", 4),
    (strOf "may", 5),
    (strOf "jun", 6), (strOf "june", 6),
    (strOf "jul", 7), (strOf "july", 7),
    (strOf "aug", 8), (strOf "august", 8),
    (strOf "sep", 9), (strOf "sept", 9), (strOf "september", 9),
    (strOf "oct", 10), (strOf "october", 10),
    (strOf "nov", 11), (strOf "november", 11),
    (strOf "dec", 12), (strOf "december", 12) ]

/-- `parseMonthName`: lower-case lookup; no entry maps to 0, so the JS
`|| null` is exactly lookup failure. -/
def parseMonthName (monthStr : Str) : Option Nat :=
  (MONTH_NAMES.find? fun e => e.1 = toLowerStr monthStr).map fun e => e.2

/-- The day/month disambiguation of the numeric patterns: a component
greater than 12 must be the day; otherwise the caller preference decides.
Returns `(day, month)`. -/
def numericDayMonth (part1 part2 : Nat) (preferDDMM : Bool) : Nat × Nat :=
  if 12 < part1 then (part1, part2)
  else if 12 < part2 then (part2, part1)
  else if preferDDMM then (part1, part2) else (part2, part1)

/-- The per-pattern component parsers, on the three capture strings.
Returns `(year, month, day)`. -/
def parseDateParts (fmt : DateFmt) (c1 c2 c3 : Str) (preferDDMM : Bool) :
    Option (Nat × Nat × Nat) :=
  match fmt with
  | .isoFmt => some (digitsToNat c1, digitsToNat c2, digitsToNat c3)
  | .dmy4 =>
    let dm := numericDayMonth (digitsToNat c1) (digitsToNat c2) preferDDMM
    some (digitsToNat c3, dm.2, dm.1)
  | .dMonY =>
    match parseMonthName c2 with
    | some month => some (digitsToNat c3, month, digitsToNat c1)
    | none => none
  | .monDY =>
    match parseMonthName c1 with
    | some month => some (digitsToNat c3, month, digitsToNat c2)
    | none => none
  | .dmy2 =>
    let yearShort := digitsToNat c3
    let year := if yearShort < 50 then 2000 + yearShort else 1900 + yearShort
    let dm := numericDayMonth (digitsToNat c1) (digitsToNat c2) preferDDMM
    some (year, dm.2, dm.1)

/-- `isValidDate`: bounds checks, then the JS `new Date(y, m-1, d)`
round-trip.  With `1 ≤ m ≤ 12` and `1 ≤ d ≤ 31` already enforced, the JS
`Date` constructor normalizes the components exactly when `d` exceeds the
length of the month, so the round-trip succeeds iff `d ≤ daysInMonth y m`. -/
def isValidDate (curYear y m d : Nat) : Bool :=
  if y < 1990 || curYear + 1 < y then false
  else if m < 1 || 12 < m then false
  else if d < 1 || 31 < d then false
  else decide (d ≤ daysInMonth y m)

/-- `isDateInReasonableRange` of the date extractor: within
`[one year ago, one month from now]`.  All three JS `Date` values are local
midnights, so comparison of day counts is exact. -/
def isDateInReasonableRange (env : Env) (y m d : Nat) : Bool :=
  let date := jsDateDays y ((m : Int) - 1) d
  let oneYearAgo := jsDateDays ((env.todayY : Int) - 1) ((env.todayM : Int) - 1) env.todayD
  let oneMonthFuture := jsDateDays env.todayY env.todayM env.todayD
  decide (oneYearAgo ≤ date) && decide (date ≤ oneMonthFuture)

/-- JS `String(n).padStart(2, '0')`. -/
def pad2 (n : Nat) : Str := if n < 10 then '0' :: natToStr n else natToStr n

/-- `formatToISO`. -/
def formatToISO (y m d : Nat) : Str :=
  natToStr y ++ '-' :: pad2 m ++ '-' :: pad2 d

/-- `ExtractedDate` of `types.ts` (the `format` string is modelled by
`DateFmt`). -/
structure ExtractedDate where
  value : Str
  original : Str
  format : DateFmt
  confidence : Nat
deriving DecidableEq

/-- Match a date pattern against the line (the JS `line.match(pattern)`,
first occurrence only) and run its component parser.  `none` covers the
`!match` and `!parsed` `continue`s of the source loop. -/
def matchAndParse (preferDDMM : Bool) (line : Str) (pat : RE × DateFmt) :
    Option ((Nat × Nat × Nat) × Str) :=
  match reSearch line pat.1 0 with
  | none => none
  | some m =>
    let c1 := (capText line m 1).getD []
    let c2 := (capText line m 2).getD []
    let c3 := (capText line m 3).getD []
    match parseDateParts pat.2 c1 c2 c3 preferDDMM with
    | none => none
    | some ymd => some (ymd, matchedText line m)

/-- The confidence computation of `extractDate`: base 70, ISO scores 100,
month-name formats add 20, a date in reasonable range adds 10, capped at
100.  (`'YYYY-MM-DD'.includes('MMM')` is false, so only the two month-name
formats get the +20.) -/
def dateConfidence (env : Env) (fmt : DateFmt) (y m d : Nat) : Nat :=
  let confidence := 70
  let confidence := if fmt = .isoFmt then 100 else confidence
  let confidence := if fmt = .dMonY || fmt = .monDY then confidence + 20 else confidence
  let confidence :=
    if isDateInReasonableRange env y m d then confidence + 10 else confidence
  min confidence 100

/-- One iteration of the `extractDate` loop: `none` exactly when the
pattern does not match, its parser fails, or the date is not calendar
valid (all three `continue` in the source). -/
def attemptDatePat (env : Env) (preferDDMM : Bool) (line : Str) (pat : RE × DateFmt) :
    Option ExtractedDate :=
  match matchAndParse preferDDMM line pat with
  | none => none
  | some (ymd, orig) =>
    if isValidDate env.curYear ymd.1 ymd.2.1 ymd.2.2 then
      some { value := formatToISO ymd.1 ymd.2.1 ymd.2.2
             original := orig
             format := pat.2
             confidence := dateConfidence env pat.2 ymd.1 ymd.2.1 ymd.2.2 }
    else none

/-- The pattern loop of `extractDate`. -/
def tryDatePats (env : Env) (line : Str) (preferDDMM : Bool) :
    List (RE × DateFmt) → Option ExtractedDate
  | [] => none
  | pat :: rest =>
    match attemptDatePat env preferDDMM line pat with
    | some r => some r
    | none => tryDatePats env line preferDDMM rest

/-- `extractDate`. -/
def extractDate (env : Env) (line : Str) (preferDDMM : Bool) : Option ExtractedDate :=
  tryDatePats env line preferDDMM DATE_EXTRACTION_PATTERNS

/-!
Layer 3b: amount extractor (`amount-extractor.ts`), the variant whose
`extractAmounts` classifies null-sign amounts from a trailing `Cr` / `Dr`
marker on the line.
-/

/-- `ExtractedAmount` of `types.ts`, with `value` in cents. -/
structure ExtractedAmount where
  cents : Nat
  original : Str
  isDebit : Bool
  isCredit : Bool
  confidence : Nat
deriving DecidableEq

/-- One entry of `AMOUNT_EXTRACTION_PATTERNS`; `isDebit = none` is the JS
`null` (sign unresolved by the pattern). -/
structure AmountPattern where
  re : RE
  isDebit : Option Bool
  confidence : Nat

/-- `AMOUNT_EXTRACTION_PATTERNS`, in source order: parenthesized (debit),
negative sign (debit), `DR` suffix, `CR` suffix, currency symbol,
comma-grouped, and plain 3+-digit amounts. -/
def AMOUNT_EXTRACTION_PATTERNS : List AmountPattern :=
  [ ⟨rSeq [rLit '(', rOpt rCurrency, rMany rWs, .grp 1 rAmountCore, rLit ')'],
      some true, 95⟩,
    ⟨rSeq [rLit '-', rMany rWs, rOpt rCurrency, rMany rWs, .grp 1 rAmountCore],
      some true, 95⟩,
    ⟨rSeq [.grp 1 rAmountCore, rPlus rWs, rStrCI "DR", .wb], some true, 100⟩,
    ⟨rSeq [.grp 1 rAmountCore, rPlus rWs, rStrCI "CR", .wb], some false, 100⟩,
    ⟨rSeq [rCurrency, rMany rWs, .grp 1 rAmountCore], none, 70⟩,
    ⟨rSeq [.wb, .grp 1 (rSeq [rRep 1 3 rDigit, rPlus (rSeq [rLit ',', rRep 3 3 rDigit]),
            rOpt (rSeq [rLit '.', rRep 2 2 rDigit])]), .wb], none, 60⟩,
    ⟨rSeq [.wb, .grp 1 (rSeq [rAtLeast 3 rDigit,
            rOpt (rSeq [rLit '.', rRep 2 2 rDigit])]), .wb], none, 55⟩ ]

/-- The debit/credit flag resolution of the `extractAmounts` loop:
`isDebit = defaultIsDebit; isCredit = defaultIsDebit === false;` then, when
the pattern left the sign `null`, the trailing `Cr` / `Dr` marker of the
line decides; a still-`null` `isDebit` is pushed as `false`
(`isDebit ?? false`). -/
def resolveFlags (defaultIsDebit : Option Bool) (endsWithCr endsWithDr : Bool) : Bool × Bool :=
  match defaultIsDebit with
  | some b => (b, b = false)
  | none =>
    if endsWithCr then (false, true)
    else if endsWithDr then (true, false)
    else (false, false)

/-- The body of the match loop of `extractAmounts`: parse the last capture
group, reject non-positive or too-large values, resolve the debit/credit
flags.  The second component is `match.index`. -/
def buildAmount (line : Str) (endsWithCr endsWithDr : Bool) (pat : AmountPattern)
    (m : RMatch) : Option (ExtractedAmount × Nat) :=
  let amountStr := (capText line m 1).getD []
  let value := parseCents amountStr
  if value = 0 || 1000000000 < value then none
  else
    let flags := resolveFlags pat.isDebit endsWithCr endsWithDr
    some ({ cents := value
            original := trimStr (matchedText line m)
            isDebit := flags.1
            isCredit := flags.2
            confidence := pat.confidence }, m.index)

/-- Distance of two naturals. -/
def natDist (a b : Nat) : Nat := if a ≤ b then b - a else a - b

/-- The duplicate-removal loop of `extractAmounts`.  The entries already in
`deduped` have had their `position` field removed when they were pushed, so
the JS duplicate test reads `existing.position` as `undefined`;
`Math.abs(undefined - result.position)` is `NaN` and `NaN < 20` is `false`.
The test is therefore the value comparison conjoined with `false`, and
never fires. -/
def dedupeAmountsLoop (deduped : List ExtractedAmount) :
    List (ExtractedAmount × Nat) → List ExtractedAmount
  | [] => deduped
  | result :: rest =>
    let isDuplicate := deduped.any fun existing =>
      natDist existing.cents result.1.cents < 1 && false
    if isDuplicate then dedupeAmountsLoop deduped rest
    else dedupeAmountsLoop (deduped ++ [result.1]) rest

/-- See `dedupeAmountsLoop`. -/
def dedupeAmounts (sorted : List (ExtractedAmount × Nat)) : List ExtractedAmount :=
  dedupeAmountsLoop [] sorted

/-- The `results` array of `extractAmounts`: every pattern run globally,
each hit paired with its `match.index`, in pattern order. -/
def rawAmountHits (line : Str) : List (ExtractedAmount × Nat) :=
  let endsWithCr := reTest (rSeq [.wb, rStrCI "CR", rMany rWs, .eol]) line
  let endsWithDr := reTest (rSeq [.wb, rStrCI "DR", rMany rWs, .eol]) line
  AMOUNT_EXTRACTION_PATTERNS.flatMap fun pat =>
    (reMatchAll line pat.re).filterMap (buildAmount line endsWithCr endsWithDr pat)

/-- The hits sorted by position (`results.sort((a, b) => a.position -
b.position)`; JS `Array.prototype.sort` is stable). -/
def sortedAmountHits (line : Str) : List (ExtractedAmount × Nat) :=
  sortByKey (fun r => (r.2 : Int)) (rawAmountHits line)

/-- `extractAmounts`: the position-sorted hits of every pattern, then the
(ineffective) duplicate removal. -/
def extractAmounts (line : Str) : List ExtractedAmount :=
  dedupeAmounts (sortedAmountHits line)

/-- Result record of `classifyAmounts`. -/
structure ClassifiedAmounts where
  transactionAmount : Option ExtractedAmount
  balance : Option ExtractedAmount
deriving DecidableEq

/-- The JS `reduce((max, curr) => curr.value > max.value ? curr : max)`. -/
def reduceMax : ExtractedAmount → List ExtractedAmount → ExtractedAmount
  | mx, [] => mx
  | mx, curr :: rest => reduceMax (if mx.cents < curr.cents then curr else mx) rest

/-- `classifyAmounts`: none → both null; one → transaction amount only;
two → first is transaction, last is balance; more → the largest non-last
amount is the transaction, last is balance. -/
def classifyAmounts : List ExtractedAmount → ClassifiedAmounts
  | [] => { transactionAmount := none, balance := none }
  | [a] => { transactionAmount := some a, balance := none }
  | a :: b :: rest =>
    let balance := List.getLastD (b :: rest) a
    match rest with
    | [] => { transactionAmount := some a, balance := some balance }
    | _ :: _ =>
      { transactionAmount := some (reduceMax a ((b :: rest).dropLast))
        balance := some balance }

/-!
Layer 3c: description extractor (`description-extractor.ts`), the variant
that also strips money-shaped substrings by pattern.
-/

/-- `[A-Za-z0-9]` (the `[A-Z0-9]` of the source under the `i` flag). -/
def rAlnumCI : RE := .cls false [('A', 'Z'), ('a', 'z'), ('0', '9')]

/-- `[A-Z0-9]` (case sensitive). -/
def rUpperAlnum : RE := .cls false [('A', 'Z'), ('0', '9')]

/-- `[,\-\s]`. -/
def rPunctWs : RE := .cls false ([(',', ','), ('-', '-')] ++ wsRanges)

/-- `extractDescription`: remove the date text and the amount texts
literally, strip money-shaped substrings, reference codes and long
alphanumeric codes, collapse whitespace, trim punctuation; fall back to the
first 5 alphabetic tokens when under 3 characters; truncate at 100. -/
def extractDescription (line : Str) (dateText : Option Str) (amountTexts : List Str) : Str :=
  let d1 :=
    match dateText with
    | some dt => replaceFirstStr line dt []
    | none => line
  let d2 := amountTexts.foldl (fun d t => replaceFirstStr d t []) d1
  let d3 := reReplaceAll
    (rSeq [rAmountCore, rPlus rWs, rAlts [rStrCI "Cr", rStrCI "DR"], .wb]) d2 []
  let d4 := reReplaceAll
    (rSeq [.wb, rRep 1 3 rDigit, rPlus (rSeq [rLit ',', rRep 3 3 rDigit]),
           rLit '.', rRep 2 2 rDigit, .wb]) d3 []
  let d5 := reReplaceAll (rSeq [.wb, rPlus rDigit, rLit '.', rRep 2 2 rDigit, .wb]) d4 []
  let d6 := reReplaceAll
    (rSeq [.wb, .grp 1 (rAlts [rStrCI "REF", rStrCI "TXN", rStrCI "ID",
           rStrCI "TRACE", rStrCI "AUTH"]), rLit ':', rMany rWs, rPlus rAlnumCI]) d5 []
  let d7 := reReplaceAll (rSeq [.wb, rAtLeast 6 rUpperAlnum, .wb]) d6 []
  let d8 := reReplaceAll (rAtLeast 2 rWs) d7 (strOf " ")
  let d9 := trimStr d8
  let d10 := reReplaceAll
    (rAlts [rSeq [.bol, rPlus rPunctWs], rSeq [rPlus rPunctWs, .eol]]) d9 []
  let d11 :=
    if d10.length < 3 then
      let tokens := reSplit (rPlus rWs) line
      let textTokens := tokens.filter fun t => reTest (rAtLeast 2 rAlpha) t
      List.intercalate (strOf " ") (textTokens.take 5)
    else d10
  if 100 < d11.length then trimStr (d11.take 100) ++ strOf "..." else d11

/-!
Layer 4: transaction validator (`transaction-validator.ts`).
-/

/-- `ConfidenceFactors` of `types.ts`. -/
structure ConfidenceFactors where
  hasValidDate : Bool
  hasAmount : Bool
  hasDescription : Bool
  hasBalance : Bool
  amountFormatValid : Bool
  dateInReasonableRange : Bool
deriving DecidableEq

/-- `Transaction` of `types/transaction.ts`: date, description, the
PAYMENTS / RECEIPTS / BALANCE columns (cents), and the raw line. -/
structure Transaction where
  date : Str
  description : Str
  payment : Option Nat
  receipt : Option Nat
  balance : Option Nat
  rawLine : Str
deriving DecidableEq

/-- `ParsedTransaction`: a transaction with its score. -/
structure ParsedTransaction extends Transaction where
  confidence : Nat
  factors : ConfidenceFactors
  issues : List Str
deriving DecidableEq

/-- `SkippedLine`. -/
structure SkippedLine where
  line : Str
  lineNumber : Nat
  reason : Str
  confidence : Nat
deriving DecidableEq

/-- The weight table `CONFIDENCE_WEIGHTS`. -/
structure Weights where
  hasValidDate : Nat
  hasAmount : Nat
  hasDescription : Nat
  hasBalance : Nat
  amountFormatValid : Nat
  dateInReasonableRange : Nat

/-- `CONFIDENCE_WEIGHTS = {30, 25, 15, 10, 10, 10}`. -/
def CONFIDENCE_WEIGHTS : Weights :=
  { hasValidDate := 30
    hasAmount := 25
    hasDescription := 15
    hasBalance := 10
    amountFormatValid := 10
    dateInReasonableRange := 10 }

/-- `/^\d{4}-\d{2}-\d{2}$/`. -/
def isoShapeRe : RE :=
  rSeq [.bol, rRep 4 4 rDigit, rLit '-', rRep 2 2 rDigit, rLit '-', rRep 2 2 rDigit, .eol]

/-- The `(year, month, day)` components of a `YYYY-MM-DD`-shaped string. -/
def isoDateFields (s : Str) : Nat × Nat × Nat :=
  (digitsToNat (s.take 4), digitsToNat ((s.drop 5).take 2), digitsToNat ((s.drop 8).take 2))

/-- `!isNaN(new Date(s).getTime())` for a `YYYY-MM-DD`-shaped string: the
ISO date parser accepts exactly month `01`–`12` and a day within the length
of that month. -/
def isoParseable (s : Str) : Bool :=
  let f := isoDateFields s
  1 ≤ f.2.1 && f.2.1 ≤ 12 && 1 ≤ f.2.2 && f.2.2 ≤ daysInMonth f.1 f.2.1

/-- The `hasValidDate` factor: a present, `YYYY-MM-DD`-shaped, parseable
date string. -/
def dateFieldValid (transaction : Transaction) : Bool :=
  !transaction.date.isEmpty && reTest isoShapeRe transaction.date &&
    isoParseable transaction.date

/-- The `hasAmount` factor: `Boolean(payment || receipt)`; a JS `0` amount
is falsy. -/
def amountFieldPresent (transaction : Transaction) : Bool :=
  (match transaction.payment with
   | some v => v != 0
   | none => false) ||
  (match transaction.receipt with
   | some v => v != 0
   | none => false)

/-- `isDateReasonable` of the validator: not in the future, not older than
5 years.  The embedding compares whole days (the sub-day part of `new
Date()` and time-zone offsets are below the granularity of any claim
proved here); called on `YYYY-MM-DD`-shaped strings only. -/
def isDateReasonable (env : Env) (dateStr : Str) : Bool :=
  let f := isoDateFields dateStr
  let date := daysFromCivil f.1 f.2.1 f.2.2
  let nowDays := jsDateDays env.todayY ((env.todayM : Int) - 1) env.todayD
  if nowDays < date then false
  else
    let fiveYearsAgo := jsDateDays ((env.todayY : Int) - 5) ((env.todayM : Int) - 1) env.todayD
    decide (fiveYearsAgo ≤ date)

/-- `calculateConfidenceFactors`. -/
def calculateConfidenceFactors (env : Env) (transaction : Transaction) : ConfidenceFactors :=
  let hasValidDate := dateFieldValid transaction
  let dateInReasonableRange := hasValidDate && isDateReasonable env transaction.date
  let hasAmount := amountFieldPresent transaction
  let amountFormatValid :=
    (match transaction.payment with
     | some v => decide (0 ≤ v)
     | none => true) &&
    (match transaction.receipt with
     | some v => decide (0 ≤ v)
     | none => true)
  let hasDescription :=
    !transaction.description.isEmpty &&
    decide (3 ≤ transaction.description.length) &&
    reTest (rPlus rAlpha) transaction.description
  let hasBalance :=
    match transaction.balance with
    | some v => decide (0 ≤ v)
    | none => false
  { hasValidDate := hasValidDate
    hasAmount := hasAmount
    hasDescription := hasDescription
    hasBalance := hasBalance
    amountFormatValid := amountFormatValid
    dateInReasonableRange := dateInReasonableRange }

/-- `calculateConfidenceScore`: the sequential accumulation of the source. -/
def calculateConfidenceScore (factors : ConfidenceFactors) : Nat :=
  let score := 0
  let score := if factors.hasValidDate then score + CONFIDENCE_WEIGHTS.hasValidDate else score
  let score := if factors.hasAmount then score + CONFIDENCE_WEIGHTS.hasAmount else score
  let score := if factors.hasDescription then score + CONFIDENCE_WEIGHTS.hasDescription else score
  let score := if factors.hasBalance then score + CONFIDENCE_WEIGHTS.hasBalance else score
  let score := if factors.amountFormatValid then score + CONFIDENCE_WEIGHTS.amountFormatValid else score
  let score := if factors.dateInReasonableRange then score + CONFIDENCE_WEIGHTS.dateInReasonableRange else score
  score

/-- `validateTransaction`. -/
def validateTransaction (env : Env) (transaction : Transaction) : ParsedTransaction :=
  let factors := calculateConfidenceFactors env transaction
  let confidence := calculateConfidenceScore factors
  let issues :=
    (if !factors.hasValidDate then [strOf "Invalid or missing date"] else []) ++
    (if !factors.hasAmount then [strOf "No transaction amount found"] else []) ++
    (if !factors.hasDescription then [strOf "Missing or invalid description"] else []) ++
    (if !factors.dateInReasonableRange then [strOf "Date is outside reasonable range"] else []) ++
    (if !factors.amountFormatValid then [strOf "Amount format is invalid"] else [])
  { toTransaction := transaction
    confidence := confidence
    factors := factors
    issues := issues }

/-- `isValidTransaction`: minimum confidence, then the two critical
factors. -/
def isValidTransaction (transaction : ParsedTransaction) (minConfidence : Nat) : Bool :=
  if transaction.confidence < minConfidence then false
  else if !transaction.factors.hasValidDate then false
  else if !transaction.factors.hasAmount then false
  else true

/-!
Orchestrator (`parse-transactions.ts`), the variant that builds
PAYMENTS / RECEIPTS columns and resolves unmarked amounts through keyword
lists.
-/

/-- The `dateFormat` option values. -/
inductive DateFormatOpt where
  | ddmmyyyy : DateFormatOpt
  | mmddyyyy : DateFormatOpt
  | auto : DateFormatOpt
deriving DecidableEq

/-- `ParsingOptions` (all fields optional). -/
structure ParsingOptions where
  minConfidence : Option Nat
  dateFormat : Option DateFormatOpt
  strict : Option Bool
deriving DecidableEq

/-- `ParsingOptions` with the defaults applied
(`minConfidence ?? 50`, `dateFormat ?? 'auto'`, `strict ?? false`). -/
structure ResolvedOptions where
  minConfidence : Nat
  dateFormat : DateFormatOpt
  strict : Bool
deriving DecidableEq

/-- The defaulting at the top of `parseTransactions`. -/
def resolveOptions (options : ParsingOptions) : ResolvedOptions :=
  { minConfidence := options.minConfidence.getD 50
    dateFormat := options.dateFormat.getD .auto
    strict := options.strict.getD false }

/-- The debit keyword list of `parseLine`. -/
def DEBIT_KEYWORDS : List Str :=
  [strOf "KAS-IB-TRF TO", strOf "KAS-cc", strOf "KAS-chamika",
   strOf "KAS-EFT-Chg", strOf "Cash advance"]

/-- The credit keyword list of `parseLine`. -/
def CREDIT_KEYWORDS : List Str :=
  [strOf "KAS-IB-TRF FROM", strOf "OPENING BALANCE", strOf "DEPOSIT"]

/-- `/(\d{1,3}(?:,\d{3})*(?:\.\d{2})?)\s+(?:Cr|Dr)\s*$/i`, the inline
balance pattern of `parseLine`. -/
def balanceTailRe : RE :=
  rSeq [.grp 1 rAmountCore, rPlus rWs, rAlts [rStrCI "Cr", rStrCI "Dr"], rMany rWs, .eol]

/-- `parseLine`: date, amounts, keyword-based sign resolution, description,
inline balance, then validation.  Returns `none` exactly when no date or no
transaction amount was extracted. -/
def parseLine (env : Env) (options : ResolvedOptions) (line : Str) (lineNumber : Nat) :
    Option ParsedTransaction :=
  let preferDDMM := options.dateFormat != .mmddyyyy
  match extractDate env line preferDDMM with
  | none => none
  | some dateResult =>
    -- The source passes `dateResult.original` as a second argument, which
    -- this one-parameter `extractAmounts` ignores (JS extra-argument rule).
    let amounts := extractAmounts line
    let classified := classifyAmounts amounts
    match classified.transactionAmount with
    | none => none
    | some transactionAmount =>
      let hasDebitKeyword := DEBIT_KEYWORDS.any fun k => containsSub line k
      let hasCreditKeyword := CREDIT_KEYWORDS.any fun k => containsSub line k
      let flags : Bool × Bool :=
        if !transactionAmount.isCredit && !transactionAmount.isDebit then
          if hasDebitKeyword then (true, false)
          else if hasCreditKeyword then (false, true)
          else (transactionAmount.isDebit, transactionAmount.isCredit)
        else (transactionAmount.isDebit, transactionAmount.isCredit)
      let amountTexts := amounts.map fun a => a.original
      let description := extractDescription line (some dateResult.original) amountTexts
      let balance : Option Nat :=
        match reSearch line balanceTailRe 0 with
        | some m => some (parseCents ((capText line m 1).getD []))
        | none => none
      let transaction : Transaction :=
        { date := dateResult.value
          description := description
          payment := if flags.1 then some transactionAmount.cents else none
          receipt := if flags.2 then some transactionAmount.cents else none
          balance := balance
          rawLine := line }
      let _ := lineNumber
      some (validateTransaction env transaction)

/-- The reason string of a low-confidence skip:
`Low confidence (C%). Issues: i1, i2, ...`. -/
def lowConfReason (transaction : ParsedTransaction) : Str :=
  strOf "Low confidence (" ++ natToStr transaction.confidence ++
  strOf "%). Issues: " ++ List.intercalate (strOf ", ") transaction.issues

/-- The reason string of an extraction-failure skip. -/
def failedExtractReason : Str := strOf "Failed to extract required fields"

/-- The candidate loop of `parseTransactions`: each candidate goes to the
accepted list, or to the skipped list with a reason. -/
def processCandidates (env : Env) (options : ResolvedOptions) :
    List CandidateLine → List ParsedTransaction × List SkippedLine
  | [] => ([], [])
  | candidate :: rest =>
    let tail := processCandidates env options rest
    match parseLine env options candidate.line candidate.lineNumber with
    | none =>
      (tail.1,
       { line := candidate.line
         lineNumber := candidate.lineNumber
         reason := failedExtractReason
         confidence := 0 } :: tail.2)
    | some transaction =>
      if isValidTransaction transaction options.minConfidence then
        (transaction :: tail.1, tail.2)
      else
        (tail.1,
         { line := candidate.line
           lineNumber := candidate.lineNumber
           reason := lowConfReason transaction
           confidence := transaction.confidence } :: tail.2)

/-- The sort key: `new Date(t.date).getTime()`, in days.  The pipeline only
stores zero-padded ISO dates, on which this parse is exact. -/
def dateKey (date : Str) : Int :=
  let f := isoDateFields date
  daysFromCivil f.1 f.2.1 f.2.2

/-- The date sort of `parseTransactions`
(`parsed.sort((a, b) => dateA.getTime() - dateB.getTime())`). -/
def sortTransactions (parsed : List ParsedTransaction) : List ParsedTransaction :=
  sortByKey (fun t => dateKey t.date) parsed

/-- `Math.round(sum / len)` on naturals (round half up). -/
def jsRound (sum len : Nat) : Nat := (2 * sum + len) / (2 * len)

/-- `ParsingMetadata`. -/
structure ParsingMetadata where
  totalLines : Nat
  candidateLines : Nat
  parsedTransactions : Nat
  skippedLines : Nat
  avgConfidence : Nat
  parseDate : Str
deriving DecidableEq

/-- `ParsingResult`. -/
structure ParsingResult where
  transactions : List Transaction
  skipped : List SkippedLine
  metadata : ParsingMetadata
deriving DecidableEq

/-- Layers 1–2 composed: the likely candidates of a text. -/
def likelyCandidatesOf (text : Str) : List CandidateLine :=
  filterLikelyCandidates (detectCandidates (normalizeLines text))

/-- `parseTransactions`: the full pipeline. -/
def parseTransactions (env : Env) (text : Str) (options : ParsingOptions) : ParsingResult :=
  let opts := resolveOptions options
  let normalized := normalizeLines text
  let likelyCandidates := likelyCandidatesOf text
  let pr := processCandidates env opts likelyCandidates
  let sorted := sortTransactions pr.1
  let avgConfidence :=
    if 0 < sorted.length then jsRound ((sorted.map fun t => t.confidence).sum) sorted.length
    else 0
  { transactions := sorted.map fun t => t.toTransaction
    skipped := pr.2
    metadata :=
      { totalLines := normalized.length
        candidateLines := likelyCandidates.length
        parsedTransactions := sorted.length
        skippedLines := pr.2.length
        avgConfidence := avgConfidence
        parseDate := env.parseDate } }

/-!
Concrete inputs used by the concrete evaluations below.
-/

/-- A concrete clock: 2026-10-11. -/
def testEnv : Env :=
  { curYear := 2026
    todayY := 2026
    todayM := 10
    todayD := 11
    parseDate := strOf "2026-10-11T00:00:00.000Z" }

/-- Empty parsing options (all defaults). -/
def defaultOptions : ParsingOptions :=
  { minConfidence := none, dateFormat := none, strict := none }

/-- The masked-card-number line of the spec's Scenario 2. -/
def scenarioLine : Str :=
  strOf "17/11/25 Cash advance 432572******5281 6,000.00 6,063.00 Cr"

/-- The no-date candidate line of the spec's Scenario 3. -/
def noDateLine : Str := strOf "Miscellaneous fee applied 25.00"

/-- A scored transaction whose critical date factor fails. -/
def sampleRejectedPT : ParsedTransaction :=
  { date := []
    description := []
    payment := none
    receipt := none
    balance := none
    rawLine := []
    confidence := 100
    factors :=
      { hasValidDate := false
        hasAmount := true
        hasDescription := true
        hasBalance := true
        amountFormatValid := true
        dateInReasonableRange := true }
    issues := [] }

/-- An extracted amount of `c` cents with unresolved sign. -/
def sampleAmt (c : Nat) : ExtractedAmount :=
  { cents := c, original := [], isDebit := false, isCredit := false, confidence := 60 }

/-!
Helper lemmas: the stable sort.
-/

theorem insertByKey_perm (f : α → Int) (x : α) (l : List α) :
    (insertByKey f x l).Perm (x :: l) := by
  induction l with
  | nil => simp [insertByKey]
  | cons y ys ih =>
    simp only [insertByKey]
    split
    · exact List.Perm.refl _
    · exact (ih.cons y).trans (List.Perm.swap x y ys)

theorem sortByKey_perm (f : α → Int) (l : List α) : (sortByKey f l).Perm l := by
  induction l with
  | nil => exact List.Perm.refl _
  | cons x xs ih => exact (insertByKey_perm f x (sortByKey f xs)).trans (ih.cons x)

theorem mem_insertByKey (f : α → Int) (x a : α) (l : List α) :
    a ∈ insertByKey f x l ↔ a = x ∨ a ∈ l := by
  rw [(insertByKey_perm f x l).mem_iff, List.mem_cons]

theorem pairwise_insertByKey (f : α → Int) (x : α) (l : List α)
    (h : l.Pairwise fun a b => f a ≤ f b) :
    (insertByKey f x l).Pairwise fun a b => f a ≤ f b := by
  induction l with
  | nil => simp [insertByKey]
  | cons y ys ih =>
    rw [List.pairwise_cons] at h
    obtain ⟨hy, hys⟩ := h
    simp only [insertByKey]
    split
    · rename_i hxy
      rw [List.pairwise_cons]
      refine ⟨?_, List.pairwise_cons.mpr ⟨hy, hys⟩⟩
      intro b hb
      rcases List.mem_cons.mp hb with rfl | hb
      · exact hxy
      · exact le_trans hxy (hy b hb)
    · rename_i hxy
      rw [List.pairwise_cons]
      refine ⟨?_, ih hys⟩
      intro b hb
      rcases (mem_insertByKey f x b ys).mp hb with rfl | hb
      · omega
      · exact hy b hb

theorem pairwise_sortByKey (f : α → Int) (l : List α) :
    (sortByKey f l).Pairwise fun a b => f a ≤ f b := by
  induction l with
  | nil => simp [sortByKey]
  | cons x xs ih => exact pairwise_insertByKey f x (sortByKey f xs) ih

theorem filter_insertByKey (f : α → Int) (k : Int) (x : α) (l : List α) :
    (insertByKey f x l).filter (fun a => f a == k) =
      (if f x == k then [x] else []) ++ l.filter fun a => f a == k := by
  induction l with
  | nil =>
    simp only [insertByKey, List.filter_cons, List.filter_nil]
    by_cases hxk : f x = k <;> simp [hxk]
  | cons y ys ih =>
    simp only [insertByKey]
    split
    · simp only [List.filter_cons]
      by_cases hxk : f x = k <;> simp [hxk]
    · rename_i hxy
      simp only [List.filter_cons, ih]
      by_cases hyk : f y = k
      · have hxk : ¬ f x = k := by omega
        simp [hxk, hyk]
      · by_cases hxk : f x = k <;> simp [hxk, hyk]

theorem filter_sortByKey (f : α → Int) (k : Int) (l : List α) :
    (sortByKey f l).filter (fun a => f a == k) = l.filter fun a => f a == k := by
  induction l with
  | nil => rfl
  | cons x xs ih =>
    simp only [sortByKey]
    rw [filter_insertByKey, List.filter_cons, ih]
    by_cases hx : f x = k <;> simp [hx]

/-!
Helper lemmas: the amount extractor.
-/

theorem dedupeAmountsLoop_eq (l : List (ExtractedAmount × Nat)) :
    ∀ acc, dedupeAmountsLoop acc l = acc ++ l.map fun r => r.1 := by
  induction l with
  | nil => intro acc; simp [dedupeAmountsLoop]
  | cons r rest ih =>
    intro acc
    have hdup : (acc.any fun existing =>
        natDist existing.cents r.1.cents < 1 && false) = false := by
      simp
    simp only [dedupeAmountsLoop, hdup, Bool.false_eq_true, if_false, ih, List.map_cons]
    simp

/-- The duplicate-removal pass drops nothing. -/
theorem dedupeAmounts_eq_map (l : List (ExtractedAmount × Nat)) :
    dedupeAmounts l = l.map fun r => r.1 := by
  rw [dedupeAmounts, dedupeAmountsLoop_eq]
  rfl

theorem resolveFlags_exclusive (d : Option Bool) (c r : Bool) :
    ((resolveFlags d c r).1 && (resolveFlags d c r).2) = false := by
  rcases d with _ | b
  · by_cases hc : c <;> by_cases hr : r <;> simp [resolveFlags, hc, hr]
  · cases b <;> simp [resolveFlags]

theorem buildAmount_flags (line : Str) (c d : Bool) (pat : AmountPattern) (m : RMatch)
    (a : ExtractedAmount) (p : Nat)
    (h : buildAmount line c d pat m = some (a, p)) :
    (a.isDebit && a.isCredit) = false := by
  simp only [buildAmount] at h
  split at h
  · simp at h
  · simp only [Option.some.injEq, Prod.mk.injEq] at h
    obtain ⟨h1, _⟩ := h
    rw [← h1]
    simpa using resolveFlags_exclusive pat.isDebit c d

theorem mem_extractAmounts_flags (line : Str) (a : ExtractedAmount)
    (ha : a ∈ extractAmounts line) : (a.isDebit && a.isCredit) = false := by
  rw [extractAmounts, dedupeAmounts_eq_map] at ha
  obtain ⟨r, hr, rfl⟩ := List.mem_map.mp ha
  have hr2 : r ∈ rawAmountHits line :=
    (sortByKey_perm _ (rawAmountHits line)).mem_iff.mp hr
  simp only [rawAmountHits] at hr2
  obtain ⟨pat, _, hr3⟩ := List.mem_flatMap.mp hr2
  obtain ⟨m, _, hbuild⟩ := List.mem_filterMap.mp hr3
  exact buildAmount_flags _ _ _ _ _ _ _ hbuild

theorem reduceMax_mem (x : ExtractedAmount) (l : List ExtractedAmount) :
    reduceMax x l ∈ x :: l := by
  induction l generalizing x with
  | nil => simp [reduceMax]
  | cons c rest ih =>
    simp only [reduceMax]
    rcases List.mem_cons.mp (ih (if x.cents < c.cents then c else x)) with h | h
    · rw [h]
      split
      · exact List.mem_cons_of_mem _ (List.mem_cons_self _ _)
      · exact List.mem_cons_self _ _
    · exact List.mem_cons_of_mem _ (List.mem_cons_of_mem _ h)

theorem reduceMax_le (x : ExtractedAmount) (l : List ExtractedAmount) :
    ∀ z ∈ x :: l, z.cents ≤ (reduceMax x l).cents := by
  induction l generalizing x with
  | nil =>
    intro z hz
    rw [List.mem_singleton] at hz
    subst hz
    simp [reduceMax]
  | cons c rest ih =>
    intro z hz
    simp only [reduceMax]
    have hx : x.cents ≤ (if x.cents < c.cents then c else x).cents := by
      split <;> omega
    have hc : c.cents ≤ (if x.cents < c.cents then c else x).cents := by
      split <;> omega
    rcases List.mem_cons.mp hz with rfl | hz2
    · exact le_trans hx (ih _ _ (List.mem_cons_self _ _))
    · rcases List.mem_cons.mp hz2 with rfl | hz3
      · exact le_trans hc (ih _ _ (List.mem_cons_self _ _))
      · exact ih _ z (List.mem_cons_of_mem _ hz3)

theorem classify_transactionAmount_mem (amounts : List ExtractedAmount)
    (a : ExtractedAmount)
    (h : (classifyAmounts amounts).transactionAmount = some a) : a ∈ amounts := by
  match amounts with
  | [] => simp [classifyAmounts] at h
  | [x] =>
    simp only [classifyAmounts, Option.some.injEq] at h
    rw [← h]
    exact List.mem_cons_self _ _
  | x :: y :: rest =>
    match rest with
    | [] =>
      simp only [classifyAmounts, Option.some.injEq] at h
      rw [← h]
      exact List.mem_cons_self _ _
    | z :: rs =>
      simp only [classifyAmounts, Option.some.injEq] at h
      rw [← h]
      have h1 := reduceMax_mem x ((y :: z :: rs).dropLast)
      have h2 : x :: (y :: z :: rs).dropLast ⊆ x :: y :: z :: rs :=
        List.cons_subset_cons x (List.dropLast_sublist _).subset
      exact h2 h1

/-!
Helper lemmas: validator and orchestrator.
-/

theorem isValidTransaction_factors (t : ParsedTransaction) (minConfidence : Nat)
    (h : isValidTransaction t minConfidence = true) :
    t.factors.hasValidDate = true ∧ t.factors.hasAmount = true := by
  unfold isValidTransaction at h
  split at h
  · cases h
  · split at h
    · cases h
    · split at h
      · cases h
      · rename_i h1 h2
        simp only [Bool.not_eq_true', Bool.not_eq_false] at h1 h2
        exact ⟨h1, h2⟩

theorem validateTransaction_toTransaction (env : Env) (tr : Transaction) :
    (validateTransaction env tr).toTransaction = tr := rfl

theorem validateTransaction_factors (env : Env) (tr : Transaction) :
    (validateTransaction env tr).factors = calculateConfidenceFactors env tr := rfl

theorem validateTransaction_payment (env : Env) (tr : Transaction) :
    (validateTransaction env tr).payment = tr.payment := rfl

theorem validateTransaction_receipt (env : Env) (tr : Transaction) :
    (validateTransaction env tr).receipt = tr.receipt := rfl

theorem factors_hasValidDate (env : Env) (tr : Transaction) :
    (calculateConfidenceFactors env tr).hasValidDate = dateFieldValid tr := rfl

theorem factors_hasAmount (env : Env) (tr : Transaction) :
    (calculateConfidenceFactors env tr).hasAmount = amountFieldPresent tr := rfl

theorem parseLine_some_shape (env : Env) (options : ResolvedOptions) (line : Str)
    (n : Nat) (t : ParsedTransaction) (h : parseLine env options line n = some t) :
    ∃ tr, t = validateTransaction env tr := by
  simp only [parseLine] at h
  rcases hd : extractDate env line (options.dateFormat != DateFormatOpt.mmddyyyy)
    with _ | dateResult
  · rw [hd] at h
    cases h
  · rw [hd] at h
    rcases hc : (classifyAmounts (extractAmounts line)).transactionAmount
      with _ | transactionAmount
    · rw [hc] at h
      cases h
    · rw [hc] at h
      exact ⟨_, (Option.some.inj h).symm⟩

theorem parseLine_none_iff (env : Env) (options : ResolvedOptions) (line : Str) (n : Nat) :
    parseLine env options line n = none ↔
      (extractDate env line (options.dateFormat != DateFormatOpt.mmddyyyy) = none ∨
       (classifyAmounts (extractAmounts line)).transactionAmount = none) := by
  simp only [parseLine]
  rcases hd : extractDate env line (options.dateFormat != DateFormatOpt.mmddyyyy)
    with _ | dateResult
  · simp
  · rcases hc : (classifyAmounts (extractAmounts line)).transactionAmount
      with _ | transactionAmount
    · simp
    · simp

theorem parseLine_payment_receipt (env : Env) (options : ResolvedOptions) (line : Str)
    (n : Nat) (t : ParsedTransaction) (h : parseLine env options line n = some t) :
    (t.payment.isSome && t.receipt.isSome) = false := by
  simp only [parseLine] at h
  rcases hd : extractDate env line (options.dateFormat != DateFormatOpt.mmddyyyy)
    with _ | dateResult
  · rw [hd] at h
    cases h
  · rw [hd] at h
    rcases hc : (classifyAmounts (extractAmounts line)).transactionAmount
      with _ | ta
    · rw [hc] at h
      cases h
    · rw [hc] at h
      have hta : (ta.isDebit && ta.isCredit) = false :=
        mem_extractAmounts_flags line ta (classify_transactionAmount_mem _ ta hc)
      have ht := (Option.some.inj h).symm
      subst ht
      generalize hB1 : (DEBIT_KEYWORDS.any fun k => containsSub line k) = b1 at *
      generalize hB2 : (CREDIT_KEYWORDS.any fun k => containsSub line k) = b2 at *
      generalize hD : ta.isDebit = d at *
      generalize hC : ta.isCredit = c at *
      cases d <;> cases c <;> cases b1 <;> cases b2 <;>
        simp_all [validateTransaction_payment, validateTransaction_receipt]

theorem processCandidates_cons_none (env : Env) (options : ResolvedOptions)
    (c : CandidateLine) (rest : List CandidateLine)
    (h : parseLine env options c.line c.lineNumber = none) :
    processCandidates env options (c :: rest) =
      ((processCandidates env options rest).1,
       { line := c.line, lineNumber := c.lineNumber, reason := failedExtractReason,
         confidence := 0 } :: (processCandidates env options rest).2) := by
  simp [processCandidates, h]

theorem processCandidates_cons_valid (env : Env) (options : ResolvedOptions)
    (c : CandidateLine) (rest : List CandidateLine) (t : ParsedTransaction)
    (h : parseLine env options c.line c.lineNumber = some t)
    (hv : isValidTransaction t options.minConfidence = true) :
    processCandidates env options (c :: rest) =
      (t :: (processCandidates env options rest).1,
       (processCandidates env options rest).2) := by
  simp [processCandidates, h, hv]

theorem processCandidates_cons_invalid (env : Env) (options : ResolvedOptions)
    (c : CandidateLine) (rest : List CandidateLine) (t : ParsedTransaction)
    (h : parseLine env options c.line c.lineNumber = some t)
    (hv : isValidTransaction t options.minConfidence = false) :
    processCandidates env options (c :: rest) =
      ((processCandidates env options rest).1,
       { line := c.line, lineNumber := c.lineNumber, reason := lowConfReason t,
         confidence := t.confidence } :: (processCandidates env options rest).2) := by
  simp [processCandidates, h, hv]

theorem processCandidates_length (env : Env) (options : ResolvedOptions)
    (cands : List CandidateLine) :
    (processCandidates env options cands).1.length +
      (processCandidates env options cands).2.length = cands.length := by
  induction cands with
  | nil => rfl
  | cons c rest ih =>
    rcases hp : parseLine env options c.line c.lineNumber with _ | t
    · rw [processCandidates_cons_none env options c rest hp]
      simp only [List.length_cons]
      omega
    · by_cases hv : isValidTransaction t options.minConfidence = true
      · rw [processCandidates_cons_valid env options c rest t hp hv]
        simp only [List.length_cons]
        omega
      · rw [processCandidates_cons_invalid env options c rest t hp
          (Bool.not_eq_true _ ▸ hv)]
        simp only [List.length_cons]
        omega

theorem processCandidates_mem_parsed (env : Env) (options : ResolvedOptions)
    (cands : List CandidateLine) (pt : ParsedTransaction)
    (h : pt ∈ (processCandidates env options cands).1) :
    isValidTransaction pt options.minConfidence = true ∧
      ∃ tr, pt = validateTransaction env tr := by
  induction cands with
  | nil => cases h
  | cons c rest ih =>
    rcases hp : parseLine env options c.line c.lineNumber with _ | t
    · rw [processCandidates_cons_none env options c rest hp] at h
      exact ih h
    · by_cases hv : isValidTransaction t options.minConfidence = true
      · rw [processCandidates_cons_valid env options c rest t hp hv] at h
        rcases List.mem_cons.mp h with rfl | h2
        · exact ⟨hv, parseLine_some_shape env options c.line c.lineNumber pt hp⟩
        · exact ih h2
      · rw [processCandidates_cons_invalid env options c rest t hp
          (Bool.not_eq_true _ ▸ hv)] at h
        exact ih h

theorem processCandidates_mem_skipped (env : Env) (options : ResolvedOptions)
    (cands : List CandidateLine) (c : CandidateLine) (hc : c ∈ cands)
    (hp : parseLine env options c.line c.lineNumber = none) :
    ({ line := c.line, lineNumber := c.lineNumber, reason := failedExtractReason,
       confidence := 0 } : SkippedLine) ∈ (processCandidates env options cands).2 := by
  induction cands with
  | nil => cases hc
  | cons c0 rest ih =>
    rcases List.mem_cons.mp hc with rfl | hc2
    · rw [processCandidates_cons_none env options c rest hp]
      exact List.mem_cons_self _ _
    · rcases hp0 : parseLine env options c0.line c0.lineNumber with _ | t
      · rw [processCandidates_cons_none env options c0 rest hp0]
        exact List.mem_cons_of_mem _ (ih hc2)
      · by_cases hv : isValidTransaction t options.minConfidence = true
        · rw [processCandidates_cons_valid env options c0 rest t hp0 hv]
          exact ih hc2
        · rw [processCandidates_cons_invalid env options c0 rest t hp0
            (Bool.not_eq_true _ ▸ hv)]
          exact List.mem_cons_of_mem _ (ih hc2)

/-!
Helper lemmas: projections of `parseTransactions`.
-/

theorem parseTransactions_transactions (env : Env) (text : Str) (options : ParsingOptions) :
    (parseTransactions env text options).transactions =
      (sortTransactions
        (processCandidates env (resolveOptions options) (likelyCandidatesOf text)).1).map
        fun t => t.toTransaction := rfl

theorem parseTransactions_skipped (env : Env) (text : Str) (options : ParsingOptions) :
    (parseTransactions env text options).skipped =
      (processCandidates env (resolveOptions options) (likelyCandidatesOf text)).2 := rfl

theorem parseTransactions_candidateLines (env : Env) (text : Str) (options : ParsingOptions) :
    (parseTransactions env text options).metadata.candidateLines =
      (likelyCandidatesOf text).length := rfl

theorem parseTransactions_parsedTransactions (env : Env) (text : Str) (options : ParsingOptions) :
    (parseTransactions env text options).metadata.parsedTransactions =
      (sortTransactions
        (processCandidates env (resolveOptions options) (likelyCandidatesOf text)).1).length :=
  rfl

theorem parseTransactions_skippedLines (env : Env) (text : Str) (options : ParsingOptions) :
    (parseTransactions env text options).metadata.skippedLines =
      (processCandidates env (resolveOptions options) (likelyCandidatesOf text)).2.length :=
  rfl

/-!
Helper lemmas: date-extractor pattern loop.
-/

theorem tryDatePats_append_some (env : Env) (line : Str) (preferDDMM : Bool)
    (pre : List (RE × DateFmt)) (pat : RE × DateFmt) (post : List (RE × DateFmt))
    (r : ExtractedDate)
    (hpre : ∀ q ∈ pre, attemptDatePat env preferDDMM line q = none)
    (hpat : attemptDatePat env preferDDMM line pat = some r) :
    tryDatePats env line preferDDMM (pre ++ pat :: post) = some r := by
  induction pre with
  | nil =>
    simp only [List.nil_append, tryDatePats, hpat]
  | cons q qs ih =>
    simp only [List.cons_append, tryDatePats, hpre q (List.mem_cons_self _ _)]
    exact ih fun q2 hq2 => hpre q2 (List.mem_cons_of_mem _ hq2)

theorem attemptDatePat_some_valid (env : Env) (preferDDMM : Bool) (line : Str)
    (pat : RE × DateFmt) (r : ExtractedDate)
    (h : attemptDatePat env preferDDMM line pat = some r) :
    ∃ y m d, r.value = formatToISO y m d ∧
      1990 ≤ y ∧ y ≤ env.curYear + 1 ∧ 1 ≤ m ∧ m ≤ 12 ∧ 1 ≤ d ∧ d ≤ daysInMonth y m := by
  unfold attemptDatePat at h
  split at h
  · cases h
  · rename_i ymd orig heq
    split at h
    · rename_i hvalid
      refine ⟨ymd.1, ymd.2.1, ymd.2.2, ?_, ?_⟩
      · rw [← Option.some.inj h]
      · unfold isValidDate at hvalid
        split at hvalid
        · cases hvalid
        · split at hvalid
          · cases hvalid
          · split at hvalid
            · cases hvalid
            · rename_i h1 h2 h3
              simp only [Bool.or_eq_true, decide_eq_true_eq, not_or, not_lt] at h1 h2 h3
              have hd := of_decide_eq_true hvalid
              exact ⟨by omega, by omega, by omega, by omega, by omega, hd⟩
    · cases h

theorem mem_sortTransactions (l : List ParsedTransaction) (pt : ParsedTransaction) :
    pt ∈ sortTransactions l ↔ pt ∈ l := by
  rw [sortTransactions]
  exact (sortByKey_perm _ l).mem_iff

theorem sortTransactions_pairwise (l : List ParsedTransaction) :
    (sortTransactions l).Pairwise fun a b => dateKey a.date ≤ dateKey b.date := by
  have h := pairwise_sortByKey (fun t : ParsedTransaction => dateKey t.date) l
  rw [sortTransactions]
  convert h using 0

theorem sortTransactions_length (l : List ParsedTransaction) :
    (sortTransactions l).length = l.length := by
  rw [sortTransactions]
  have h := (sortByKey_perm (fun t : ParsedTransaction => dateKey t.date) l).length_eq
  exact h

theorem some_getLastD_cons (x : α) (l : List α) (d : α) :
    some ((x :: l).getLastD d) = (x :: l).getLast? := by
  induction l generalizing x d with
  | nil => rfl
  | cons y ys ih =>
    rw [List.getLastD_cons, List.getLast?_cons_cons]
    exact ih y x

/-!
The claims.
-/

/-- C1: a transaction whose date factor or amount factor fails is never
accepted, regardless of its numeric confidence score: `isValidTransaction`
returns `false` whenever `factors.hasValidDate` or `factors.hasAmount` is
false, and consequently every transaction in the accepted list of a
`ParsingResult` has a present, calendar-valid ISO date field and at least
one (payment or receipt) amount. -/
theorem critical_factor_gate :
    (∀ (t : ParsedTransaction) (minConfidence : Nat),
        t.factors.hasValidDate = false ∨ t.factors.hasAmount = false →
        isValidTransaction t minConfidence = false) ∧
    (∀ (env : Env) (text : Str) (options : ParsingOptions),
        ((parseTransactions env text options).transactions.all fun t =>
          dateFieldValid t && amountFieldPresent t) = true) := by
  constructor
  · intro t minConfidence h
    unfold isValidTransaction
    rcases h with h | h <;> simp [h]
  · intro env text options
    rw [List.all_eq_true]
    intro tr htr
    rw [parseTransactions_transactions] at htr
    obtain ⟨pt, hpt, rfl⟩ := List.mem_map.mp htr
    have hpt2 := (mem_sortTransactions _ pt).mp hpt
    obtain ⟨hvalid, tr0, rfl⟩ :=
      processCandidates_mem_parsed env (resolveOptions options) _ pt hpt2
    obtain ⟨h1, h2⟩ := isValidTransaction_factors _ _ hvalid
    rw [validateTransaction_factors, factors_hasValidDate] at h1
    rw [validateTransaction_factors, factors_hasAmount] at h2
    rw [validateTransaction_toTransaction, h1, h2]
    rfl

/-- Witness for C1: the concrete rejected transaction. -/
theorem critical_factor_gate_witness :
    sampleRejectedPT.factors.hasValidDate = false ∧
      isValidTransaction sampleRejectedPT 0 = false :=
  ⟨rfl, critical_factor_gate.1 sampleRejectedPT 0 (Or.inl rfl)⟩

/-- Counterexample to C2 as stated: with the three amounts 1.00, 2.00,
3.00, the transaction amount is the *second* element (the largest of the
non-last ones), not the first. -/
theorem amount_classification_counterexample :
    (classifyAmounts [sampleAmt 100, sampleAmt 200, sampleAmt 300]).transactionAmount =
        some (sampleAmt 200) ∧
      sampleAmt 200 ≠ sampleAmt 100 := by
  constructor
  · rfl
  · decide

/-- C2 amended: zero amounts → both null; one amount → it is the
transaction amount, no balance; two amounts → first is transaction, last
is balance; three or more → the last is the balance and the transaction
amount is a *largest-valued* element of the non-last amounts (not the
first). -/
theorem amount_classification_amended :
    classifyAmounts [] = { transactionAmount := none, balance := none } ∧
    (∀ a, classifyAmounts [a] = { transactionAmount := some a, balance := none }) ∧
    (∀ a b, classifyAmounts [a, b] =
      { transactionAmount := some a, balance := some b }) ∧
    (∀ a b c rest,
      (classifyAmounts (a :: b :: c :: rest)).balance = (a :: b :: c :: rest).getLast? ∧
      ∃ m, (classifyAmounts (a :: b :: c :: rest)).transactionAmount = some m ∧
        m ∈ (a :: b :: c :: rest).dropLast ∧
        ∀ x ∈ (a :: b :: c :: rest).dropLast, x.cents ≤ m.cents) := by
  refine ⟨rfl, fun a => rfl, fun a b => rfl, ?_⟩
  intro a b c rest
  constructor
  · show some (List.getLastD (b :: c :: rest) a) = _
    rw [List.getLast?_cons_cons]
    exact some_getLastD_cons b (c :: rest) a
  · refine ⟨reduceMax a ((b :: c :: rest).dropLast), rfl, ?_, ?_⟩
    · rw [List.dropLast_cons₂]
      exact reduceMax_mem a ((b :: c :: rest).dropLast)
    · rw [List.dropLast_cons₂]
      exact reduceMax_le a ((b :: c :: rest).dropLast)

/-- Witness for C2: the amended classification at a concrete three-amount
list. -/
theorem amount_classification_witness :
    (classifyAmounts [sampleAmt 100, sampleAmt 200, sampleAmt 300]).balance =
        some (sampleAmt 300) ∧
      (classifyAmounts [sampleAmt 100, sampleAmt 200, sampleAmt 300]).transactionAmount =
        some (sampleAmt 200) := by
  obtain ⟨hb, m, hm, hmem, hle⟩ :=
    amount_classification_amended.2.2.2 (sampleAmt 100) (sampleAmt 200) (sampleAmt 300) []
  refine ⟨hb.trans (by rfl), ?_⟩
  have h200 := hle (sampleAmt 200) (by decide)
  have hmem2 : m = sampleAmt 100 ∨ m = sampleAmt 200 := by simpa using hmem
  rcases hmem2 with rfl | rfl
  · exact absurd h200 (by decide)
  · exact hm

/-- Counterexample to C3 as stated: on the Scenario-2 line the extracted
amount values are not `6000.00` and `6063.00` alone; the masked card-number
fragments 432572 and 5281 (and more) are among the candidates. -/
theorem right_edge_retention_counterexample :
    ((extractAmounts scenarioLine).map fun a => a.cents) =
        [43257200, 528100, 600000, 606300, 606300, 6300] ∧
      43257200 ∈ ((extractAmounts scenarioLine).map fun a => a.cents) ∧
      ((extractAmounts scenarioLine).map fun a => a.cents) ≠ [600000, 606300] := by
  have h : ((extractAmounts scenarioLine).map fun a => a.cents) =
      [43257200, 528100, 600000, 606300, 606300, 6300] := by rfl
  refine ⟨h, ?_, ?_⟩
  · rw [h]
    decide
  · rw [h]
    decide

/-- C3 amended: `extractAmounts` retains *every* positionally-sorted
pattern match (the duplicate-removal comparison reads a field that was
already stripped, so it never fires), and on the Scenario-2 line the
extracted values are 432572.00, 5281.00, 6000.00, 6063.00, 6063.00 and
63.00 — the masked card-number fragments are among the candidates. -/
theorem right_edge_retention_amended :
    (∀ line : Str, extractAmounts line = (sortedAmountHits line).map fun r => r.1) ∧
    ((extractAmounts scenarioLine).map fun a => (a.cents, a.isCredit)) =
      [(43257200, true), (528100, true), (600000, true),
       (606300, true), (606300, true), (6300, true)] := by
  constructor
  · intro line
    rw [extractAmounts]
    exact dedupeAmounts_eq_map _
  · rfl

/-- C4: the numeric `A/B/Year` disambiguation — `A > 12` makes `A` the day,
otherwise `B > 12` makes `B` the day, otherwise the day-first preference
decides — and concretely `"03/04/2024"` extracts to `2024-04-03` under
day-first preference and to `2024-03-04` otherwise (for any clock that
admits the year 2024). -/
theorem date_disambiguation :
    (∀ (part1 part2 : Nat) (preferDDMM : Bool),
      (12 < part1 → numericDayMonth part1 part2 preferDDMM = (part1, part2)) ∧
      (part1 ≤ 12 → 12 < part2 → numericDayMonth part1 part2 preferDDMM = (part2, part1)) ∧
      (part1 ≤ 12 → part2 ≤ 12 →
        numericDayMonth part1 part2 preferDDMM =
          if preferDDMM then (part1, part2) else (part2, part1))) ∧
    (∀ env : Env, 2023 ≤ env.curYear →
      ((extractDate env (strOf "03/04/2024") true).map fun d => d.value) =
          some (strOf "2024-04-03") ∧
      ((extractDate env (strOf "03/04/2024") false).map fun d => d.value) =
          some (strOf "2024-03-04")) := by
  constructor
  · intro part1 part2 preferDDMM
    refine ⟨?_, ?_, ?_⟩
    · intro h
      rw [numericDayMonth, if_pos h]
    · intro h1 h2
      rw [numericDayMonth, if_neg (by omega), if_pos h2]
    · intro h1 h2
      rw [numericDayMonth, if_neg (by omega), if_neg (by omega)]
  · intro env hcur
    have hdec : DATE_EXTRACTION_PATTERNS =
        DATE_EXTRACTION_PATTERNS.take 1 ++
          (DATE_EXTRACTION_PATTERNS.getD 1 (rFail, DateFmt.isoFmt)) ::
            DATE_EXTRACTION_PATTERNS.drop 2 := by rfl
    have hpre : ∀ pref : Bool, ∀ q ∈ DATE_EXTRACTION_PATTERNS.take 1,
        attemptDatePat env pref (strOf "03/04/2024") q = none := by
      intro pref q hq
      have hq2 : q = DATE_EXTRACTION_PATTERNS.getD 0 (rFail, DateFmt.isoFmt) := by
        rw [show DATE_EXTRACTION_PATTERNS.take 1 =
          [DATE_EXTRACTION_PATTERNS.getD 0 (rFail, DateFmt.isoFmt)] from rfl] at hq
        exact List.mem_singleton.mp hq
      subst hq2
      unfold attemptDatePat
      rw [show matchAndParse pref (strOf "03/04/2024")
        (DATE_EXTRACTION_PATTERNS.getD 0 (rFail, DateFmt.isoFmt)) = none from by
          cases pref <;> rfl]
    constructor
    · have hv : isValidDate env.curYear 2024 4 3 = true := by
        simp only [isValidDate, Bool.or_eq_true, decide_eq_true_eq]
        rw [if_neg (by omega), if_neg (by omega), if_neg (by omega)]
        decide
      have hpat : attemptDatePat env true (strOf "03/04/2024")
          (DATE_EXTRACTION_PATTERNS.getD 1 (rFail, DateFmt.isoFmt)) =
          some { value := formatToISO 2024 4 3
                 original := strOf "03/04/2024"
                 format := DateFmt.dmy4
                 confidence := dateConfidence env DateFmt.dmy4 2024 4 3 } := by
        unfold attemptDatePat
        rw [show matchAndParse true (strOf "03/04/2024")
          (DATE_EXTRACTION_PATTERNS.getD 1 (rFail, DateFmt.isoFmt)) =
            some ((2024, 4, 3), strOf "03/04/2024") from rfl]
        dsimp only
        rw [if_pos hv]
        rfl
      rw [extractDate, hdec,
        tryDatePats_append_some env (strOf "03/04/2024") true _ _ _ _ (hpre true) hpat]
      rfl
    · have hv : isValidDate env.curYear 2024 3 4 = true := by
        simp only [isValidDate, Bool.or_eq_true, decide_eq_true_eq]
        rw [if_neg (by omega), if_neg (by omega), if_neg (by omega)]
        decide
      have hpat : attemptDatePat env false (strOf "03/04/2024")
          (DATE_EXTRACTION_PATTERNS.getD 1 (rFail, DateFmt.isoFmt)) =
          some { value := formatToISO 2024 3 4
                 original := strOf "03/04/2024"
                 format := DateFmt.dmy4
                 confidence := dateConfidence env DateFmt.dmy4 2024 3 4 } := by
        unfold attemptDatePat
        rw [show matchAndParse false (strOf "03/04/2024")
          (DATE_EXTRACTION_PATTERNS.getD 1 (rFail, DateFmt.isoFmt)) =
            some ((2024, 3, 4), strOf "03/04/2024") from rfl]
        dsimp only
        rw [if_pos hv]
        rfl
      rw [extractDate, hdec,
        tryDatePats_append_some env (strOf "03/04/2024") false _ _ _ _ (hpre false) hpat]
      rfl

/-- Witness for C4: the disambiguation rule at concrete components and the
concrete extraction under the concrete clock. -/
theorem date_disambiguation_witness :
    (12 < 15 ∧ numericDayMonth 15 1 true = (15, 1)) ∧
    (2023 ≤ testEnv.curYear ∧
      ((extractDate testEnv (strOf "03/04/2024") true).map fun d => d.value) =
        some (strOf "2024-04-03")) :=
  ⟨⟨by decide, (date_disambiguation.1 15 1 true).1 (by decide)⟩,
   ⟨by decide, (date_disambiguation.2 testEnv (by decide)).1⟩⟩

/-- C5: `extractDate` tries its patterns in the fixed order ISO, numeric
4-digit year, day–month-name–year, month-name–day–year, numeric 2-digit
year; it returns the result of the first pattern that matches and yields a
calendar-valid date, unaffected by whatever patterns follow; and every
successful attempt carries a date with year in `[1990, current year + 1]`,
month in `[1, 12]`, and day within the month's length. -/
theorem pattern_priority :
    (DATE_EXTRACTION_PATTERNS.map (fun p => p.2) =
      [DateFmt.isoFmt, DateFmt.dmy4, DateFmt.dMonY, DateFmt.monDY, DateFmt.dmy2]) ∧
    (∀ (env : Env) (line : Str) (preferDDMM : Bool)
        (pre post : List (RE × DateFmt)) (pat : RE × DateFmt) (r : ExtractedDate),
      DATE_EXTRACTION_PATTERNS = pre ++ pat :: post →
      (∀ q ∈ pre, attemptDatePat env preferDDMM line q = none) →
      attemptDatePat env preferDDMM line pat = some r →
      extractDate env line preferDDMM = some r) ∧
    (∀ (env : Env) (preferDDMM : Bool) (line : Str) (pat : RE × DateFmt)
        (r : ExtractedDate),
      attemptDatePat env preferDDMM line pat = some r →
      ∃ y m d, r.value = formatToISO y m d ∧ 1990 ≤ y ∧ y ≤ env.curYear + 1 ∧
        1 ≤ m ∧ m ≤ 12 ∧ 1 ≤ d ∧ d ≤ daysInMonth y m) := by
  refine ⟨rfl, ?_, ?_⟩
  · intro env line preferDDMM pre post pat r hdec hpre hpat
    rw [extractDate, hdec]
    exact tryDatePats_append_some env line preferDDMM pre pat post r hpre hpat
  · intro env preferDDMM line pat r h
    exact attemptDatePat_some_valid env preferDDMM line pat r h

/-- Witness for C5: on a line matched by the second (numeric 4-digit year)
pattern after the ISO pattern fails, `extractDate` returns that pattern's
result. -/
theorem pattern_priority_witness :
    extractDate testEnv (strOf "15/01/2024 Grocery Store") true =
      some { value := strOf "2024-01-15"
             original := strOf "15/01/2024"
             format := DateFmt.dmy4
             confidence := 70 } :=
  pattern_priority.2.1 testEnv (strOf "15/01/2024 Grocery Store") true
    (DATE_EXTRACTION_PATTERNS.take 1)
    (DATE_EXTRACTION_PATTERNS.drop 2)
    (DATE_EXTRACTION_PATTERNS.getD 1 (rFail, DateFmt.isoFmt))
    _ (by rfl) (by decide) (by rfl)

/-- C6: the confidence score of every validated transaction is exactly the
sum of the fixed weights of its satisfied boolean factors
(30/25/15/10/10/10) and never exceeds 100 (it is a natural number, hence
also at least 0). -/
theorem confidence_weighted_sum :
    (∀ f : ConfidenceFactors,
      calculateConfidenceScore f =
        (if f.hasValidDate then 30 else 0) + (if f.hasAmount then 25 else 0) +
        (if f.hasDescription then 15 else 0) + (if f.hasBalance then 10 else 0) +
        (if f.amountFormatValid then 10 else 0) +
        (if f.dateInReasonableRange then 10 else 0) ∧
      calculateConfidenceScore f ≤ 100) ∧
    (∀ (env : Env) (tr : Transaction),
      (validateTransaction env tr).confidence =
        calculateConfidenceScore (calculateConfidenceFactors env tr)) := by
  constructor
  · intro f
    obtain ⟨a, b, c, d, e, g⟩ := f
    cases a <;> cases b <;> cases c <;> cases d <;> cases e <;> cases g <;>
      exact ⟨rfl, by decide⟩
  · intro env tr
    rfl

/-- C7: the transactions list of every `ParsingResult` is sorted ascending
by date (adjacent keys non-decreasing), and for every date key the
transactions carrying it appear in their original encounter order (the
output filtered to one key equals the pre-sort accepted list filtered to
that key). -/
theorem output_date_sorted :
    ∀ (env : Env) (text : Str) (options : ParsingOptions),
      List.Chain' (fun a b => dateKey a.date ≤ dateKey b.date)
        (parseTransactions env text options).transactions ∧
      ∀ k : Int,
        (parseTransactions env text options).transactions.filter
            (fun t => dateKey t.date == k) =
          ((processCandidates env (resolveOptions options)
              (likelyCandidatesOf text)).1.map fun pt => pt.toTransaction).filter
            fun t => dateKey t.date == k := by
  intro env text options
  constructor
  · rw [parseTransactions_transactions, List.chain'_map]
    exact (sortTransactions_pairwise _).chain'
  · intro k
    rw [parseTransactions_transactions, sortTransactions, List.filter_map,
      List.filter_map]
    congr 1
    exact filter_sortByKey (fun t : ParsedTransaction => dateKey t.date) k _

/-- C8: every likely candidate ends up in exactly one of the accepted and
skipped lists, so `candidateLines = parsedTransactions + skippedLines`; a
candidate from which no date or no transaction amount can be extracted is
recorded as skipped with reason "Failed to extract required fields" and
confidence 0; and `parseLine` fails exactly on those two conditions. -/
theorem extraction_failure_accounting :
    (∀ (env : Env) (text : Str) (options : ParsingOptions),
      (parseTransactions env text options).metadata.candidateLines =
        (parseTransactions env text options).metadata.parsedTransactions +
        (parseTransactions env text options).metadata.skippedLines) ∧
    (∀ (env : Env) (text : Str) (options : ParsingOptions) (c : CandidateLine),
      c ∈ likelyCandidatesOf text →
      parseLine env (resolveOptions options) c.line c.lineNumber = none →
      ({ line := c.line, lineNumber := c.lineNumber, reason := failedExtractReason,
         confidence := 0 } : SkippedLine) ∈
        (parseTransactions env text options).skipped) ∧
    (∀ (env : Env) (options : ResolvedOptions) (line : Str) (n : Nat),
      parseLine env options line n = none ↔
        (extractDate env line (options.dateFormat != DateFormatOpt.mmddyyyy) = none ∨
         (classifyAmounts (extractAmounts line)).transactionAmount = none)) := by
  refine ⟨?_, ?_, ?_⟩
  · intro env text options
    rw [parseTransactions_candidateLines, parseTransactions_parsedTransactions,
      parseTransactions_skippedLines, sortTransactions_length]
    exact (processCandidates_length env (resolveOptions options)
      (likelyCandidatesOf text)).symm
  · intro env text options c hc hp
    rw [parseTransactions_skipped]
    exact processCandidates_mem_skipped env (resolveOptions options) _ c hc hp
  · intro env options line n
    exact parseLine_none_iff env options line n

/-- Witness for C8: the Scenario-3 line (no date) is a likely candidate and
is recorded as skipped with the extraction-failure reason and confidence
0. -/
theorem extraction_failure_accounting_witness :
    ({ line := noDateLine, lineNumber := 1, reason := failedExtractReason,
       confidence := 0 } : SkippedLine) ∈
      (parseTransactions testEnv noDateLine defaultOptions).skipped :=
  extraction_failure_accounting.2.1 testEnv noDateLine defaultOptions
    { line := noDateLine, lineNumber := 1, hasDate := false, hasAmount := true,
      hasBalance := false, likelyTransaction := true }
    (by decide) (by rfl)

/-- C9: every line produced by `normalizeLines` is non-empty, between 10
and 300 characters long, and matches none of the noise signatures; the
function is total, and the empty input yields zero lines. -/
theorem normalizer_output_invariants :
    (∀ text : Str,
      ((normalizeLines text).all fun l =>
        !l.isEmpty && decide (MIN_LINE_LENGTH ≤ l.length) &&
        decide (l.length ≤ MAX_LINE_LENGTH) && !isNoiseLine l &&
        (NOISE_PATTERNS.all fun p => !reTest p l)) = true) ∧
    normalizeLines [] = [] := by
  constructor
  · intro text
    rw [List.all_eq_true]
    intro l hl
    simp only [normalizeLines] at hl
    have h2 : l ∈ filterNoiseLines ((smartSplitLines text).map normalizeLine) :=
      List.mem_of_mem_filter hl
    rw [filterNoiseLines] at h2
    have h4 := List.of_mem_filter h2
    rw [Bool.not_eq_true'] at h4
    have hlen1 : ¬ (l.length < MIN_LINE_LENGTH) := by
      intro hcond
      rw [isNoiseLine, if_pos hcond] at h4
      cases h4
    have hlen2 : ¬ (MAX_LINE_LENGTH < l.length) := by
      intro hcond
      rw [isNoiseLine, if_neg hlen1, if_pos hcond] at h4
      cases h4
    have hany : (NOISE_PATTERNS.any fun p => reTest p l) = false := by
      rw [isNoiseLine, if_neg hlen1, if_neg hlen2] at h4
      exact h4
    have hnoise : isNoiseLine l = false := by
      rw [isNoiseLine, if_neg hlen1, if_neg hlen2]
      exact hany
    have hempty : l.isEmpty = false := by
      cases l with
      | nil => exact absurd (by decide) hlen1
      | cons c cs => rfl
    simp only [Bool.and_eq_true, Bool.not_eq_true', List.all_eq_true,
      decide_eq_true_eq]
    refine ⟨⟨⟨⟨hempty, Nat.le_of_not_lt hlen1⟩, Nat.le_of_not_lt hlen2⟩, hnoise⟩, ?_⟩
    intro p hp
    have hne := List.any_eq_false.mp hany p hp
    cases htest : reTest p l
    · rfl
    · exact absurd htest hne
  · rfl

/-- C10: no extracted amount has both `isDebit` and `isCredit` set, and no
transaction built by `parseLine` has both its payment and receipt fields
defined. -/
theorem amount_sign_exclusive :
    (∀ line : Str,
      ((extractAmounts line).all fun a => !(a.isDebit && a.isCredit)) = true) ∧
    (∀ (env : Env) (options : ResolvedOptions) (line : Str) (n : Nat),
      ((parseLine env options line n).all fun t =>
        !(t.payment.isSome && t.receipt.isSome)) = true) := by
  constructor
  · intro line
    rw [List.all_eq_true]
    intro a ha
    rw [Bool.not_eq_true']
    exact mem_extractAmounts_flags line a ha
  · intro env options line n
    rcases h : parseLine env options line n with _ | t
    · rfl
    · rw [Option.all_some, Bool.not_eq_true']
      exact parseLine_payment_receipt env options line n t h

end BankParser
